import Mathlib

/-!
# Request-option resolution of the GraphQL HTTP handler

A shallow embedding of `handler.go`: `getFromForm`, `getFromMultipartForm`,
`NewRequestOptions` and the console negotiation of `Handler.ContextHandler`,
together with models of the Go standard-library operations they call
(`encoding/json`, `net/url`, `net/http` form parsing, `strings`).

Texts (bodies, header values, parameters) are Lean strings, that is sequences
of Unicode code points; byte sequences that are not valid UTF-8 are outside the
model.  A JSON number keeps its source literal as long as it is in the range of
`float64`.  A Go map is an association
list with unique keys, in order of first insertion; `none` is the nil map.
-/

namespace GraphqlHandler

/-! ## JSON values and `encoding/json` -/

/-- A parsed JSON text.  A number keeps its literal; an object keeps its members
in source order, repeated keys included. -/
inductive JSON where
  | null : JSON
  | bool (b : Bool) : JSON
  | num (lit : String) : JSON
  | str (s : String) : JSON
  | arr (items : List JSON) : JSON
  | obj (members : List (String × JSON)) : JSON
  deriving Repr

/-- The tokens of a JSON text. -/
inductive Token where
  | lbrace | rbrace | lbrack | rbrack | colon | comma
  | lit (v : JSON)
  deriving Repr

/-- The value of a hexadecimal digit. -/
def hexVal (c : Char) : Option Nat :=
  if '0' ≤ c ∧ c ≤ '9' then some (c.toNat - '0'.toNat)
  else if 'a' ≤ c ∧ c ≤ 'f' then some (c.toNat - 'a'.toNat + 10)
  else if 'A' ≤ c ∧ c ≤ 'F' then some (c.toNat - 'A'.toNat + 10)
  else none

/-- The value of four hexadecimal digits. -/
def hex4 (a b c d : Char) : Option Nat :=
  match hexVal a, hexVal b, hexVal c, hexVal d with
  | some w, some x, some y, some z => some (w * 4096 + x * 256 + y * 16 + z)
  | _, _, _, _ => none

/-- The character a one-letter escape of a JSON string stands for. -/
def unescape (e : Char) : Option Char :=
  if e = '"' then some '"'
  else if e = '\\' then some '\\'
  else if e = '/' then some '/'
  else if e = 'b' then some (Char.ofNat 8)
  else if e = 'f' then some (Char.ofNat 12)
  else if e = 'n' then some '\n'
  else if e = 'r' then some '\r'
  else if e = 't' then some '\t'
  else none

/-- A unicode escape of a low surrogate at the head of the input. -/
def lowSurrogate : List Char → Option (Nat × List Char)
  | '\\' :: 'u' :: e :: f :: g :: h :: rest =>
    match hex4 e f g h with
    | some lo => if 0xDC00 ≤ lo ∧ lo < 0xE000 then some (lo, rest) else none
    | none => none
  | _ => none

/-- A JSON string after its opening quote: the decoded text and the input after
the closing quote.  Control characters and unknown escapes are syntax errors;
an unpaired surrogate escape reads as U+FFFD, as in `encoding/json`.  Each step
consumes input, so a fuel above the input length is never exhausted. -/
def lexString : Nat → List Char → List Char → Option (String × List Char)
  | 0, _, _ => none
  | _ + 1, [], _ => none
  | _ + 1, '"' :: rest, acc => some (String.mk acc.reverse, rest)
  | fuel + 1, '\\' :: 'u' :: a :: b :: c :: d :: rest, acc =>
    match hex4 a b c d with
    | none => none
    | some hi =>
      if 0xD800 ≤ hi ∧ hi < 0xDC00 then
        match lowSurrogate rest with
        | some (lo, rest2) =>
          lexString fuel rest2 (Char.ofNat ((hi - 0xD800) * 1024 + (lo - 0xDC00) + 0x10000) :: acc)
        | none => lexString fuel rest (Char.ofNat 0xFFFD :: acc)
      else if 0xDC00 ≤ hi ∧ hi < 0xE000 then lexString fuel rest (Char.ofNat 0xFFFD :: acc)
      else lexString fuel rest (Char.ofNat hi :: acc)
  | fuel + 1, '\\' :: e :: rest, acc =>
    match unescape e with
    | some c => lexString fuel rest (c :: acc)
    | none => none
  | fuel + 1, c :: rest, acc =>
    if c.toNat < 0x20 ∨ c = '\\' then none else lexString fuel rest (c :: acc)

/-- An ASCII decimal digit. -/
def isDigit (c : Char) : Bool := '0' ≤ c ∧ c ≤ '9'

/-- The longest leading run of digits and what follows it. -/
def digits : List Char → List Char × List Char
  | [] => ([], [])
  | c :: rest => if isDigit c then ((digits rest).1.cons c, (digits rest).2) else ([], c :: rest)

/-- The optional exponent of a JSON number. -/
def lexExp (intPart : List Char) (cs : List Char) : Option (List Char × List Char) :=
  match cs with
  | e :: rest =>
    if e = 'e' ∨ e = 'E' then
      let (sign, rest1) := match rest with
        | s :: r => if s = '+' ∨ s = '-' then ([s], r) else ([], rest)
        | [] => ([], rest)
      match digits rest1 with
      | ([], _) => none
      | (ds, rest2) => some (intPart ++ [e] ++ sign ++ ds, rest2)
    else some (intPart, cs)
  | [] => some (intPart, cs)

/-- The optional fraction of a JSON number, then its exponent. -/
def lexFrac (intPart : List Char) (cs : List Char) : Option (List Char × List Char) :=
  match cs with
  | '.' :: rest =>
    match digits rest with
    | ([], _) => none
    | (ds, rest1) => lexExp (intPart ++ ['.'] ++ ds) rest1
  | _ => lexExp intPart cs

/-- The integer part of a JSON number (no leading zero), then the rest. -/
def lexInt (sign : List Char) (cs : List Char) : Option (List Char × List Char) :=
  match cs with
  | '0' :: rest => lexFrac (sign ++ ['0']) rest
  | _ =>
    match digits cs with
    | ([], _) => none
    | (ds, rest) => lexFrac (sign ++ ds) rest

/-- A JSON number at the head of the input: its literal and the input after it. -/
def lexNumber : List Char → Option (String × List Char)
  | '-' :: rest => (lexInt ['-'] rest).map fun p => (String.mk p.1, p.2)
  | cs => (lexInt [] cs).map fun p => (String.mk p.1, p.2)

/-- JSON white space. -/
def isSpace (c : Char) : Bool := c = ' ' ∨ c = '\t' ∨ c = '\n' ∨ c = '\r'

/-- The tokens of a text; `none` on a lexical error. -/
def tokenize : Nat → List Char → Option (List Token)
  | 0, _ => none
  | _ + 1, [] => some []
  | fuel + 1, c :: rest =>
    if isSpace c then tokenize fuel rest
    else if c = '\x7b' then (tokenize fuel rest).map (List.cons .lbrace)
    else if c = '\x7d' then (tokenize fuel rest).map (List.cons .rbrace)
    else if c = '[' then (tokenize fuel rest).map (List.cons .lbrack)
    else if c = ']' then (tokenize fuel rest).map (List.cons .rbrack)
    else if c = ':' then (tokenize fuel rest).map (List.cons .colon)
    else if c = ',' then (tokenize fuel rest).map (List.cons .comma)
    else if c = '"' then
      match lexString (rest.length + 1) rest [] with
      | some (s, rest1) => (tokenize fuel rest1).map (List.cons (.lit (.str s)))
      | none => none
    else if c = '-' ∨ isDigit c then
      match lexNumber (c :: rest) with
      | some (n, rest1) => (tokenize fuel rest1).map (List.cons (.lit (.num n)))
      | none => none
    else
      match c :: rest with
      | 't' :: 'r' :: 'u' :: 'e' :: rest1 => (tokenize fuel rest1).map (List.cons (.lit (.bool true)))
      | 'f' :: 'a' :: 'l' :: 's' :: 'e' :: rest1 => (tokenize fuel rest1).map (List.cons (.lit (.bool false)))
      | 'n' :: 'u' :: 'l' :: 'l' :: rest1 => (tokenize fuel rest1).map (List.cons (.lit .null))
      | _ => none

mutual
/-- One JSON value at the head of the tokens. -/
def parseValue : Nat → List Token → Option (JSON × List Token)
  | 0, _ => none
  | _ + 1, .lit v :: rest => some (v, rest)
  | _ + 1, .lbrack :: .rbrack :: rest => some (.arr [], rest)
  | fuel + 1, .lbrack :: rest => (parseItems fuel rest).map fun p => (.arr p.1, p.2)
  | _ + 1, .lbrace :: .rbrace :: rest => some (.obj [], rest)
  | fuel + 1, .lbrace :: rest => (parseMembers fuel rest).map fun p => (.obj p.1, p.2)
  | _ + 1, _ => none
/-- The elements of an array after its opening bracket, up to the closing one. -/
def parseItems : Nat → List Token → Option (List JSON × List Token)
  | 0, _ => none
  | fuel + 1, ts =>
    match parseValue fuel ts with
    | some (v, .comma :: rest) => (parseItems fuel rest).map fun p => (v :: p.1, p.2)
    | some (v, .rbrack :: rest) => some ([v], rest)
    | _ => none
/-- The members of an object after its opening brace, up to the closing one. -/
def parseMembers : Nat → List Token → Option (List (String × JSON) × List Token)
  | 0, _ => none
  | fuel + 1, .lit (.str k) :: .colon :: ts =>
    match parseValue fuel ts with
    | some (v, .comma :: rest) => (parseMembers fuel rest).map fun p => ((k, v) :: p.1, p.2)
    | some (v, .rbrace :: rest) => some ([(k, v)], rest)
    | _ => none
  | _ + 1, _ => none
end

/-- The JSON grammar alone: the one JSON value the text holds, `none` when the
text is not a JSON text (the empty text included). -/
def parseText (text : String) : Option JSON :=
  match tokenize (text.length + 1) text.data with
  | some ts =>
    match parseValue (ts.length + 1) ts with
    | some (v, []) => some v
    | _ => none
  | none => none

/-- The nesting limit of the `encoding/json` scanner (`maxNestingDepth`). -/
def maxNestingDepth : Nat := 10000

/-- Whether the scanner of `encoding/json` meets more than `maxNestingDepth`
open arrays and objects at once.  The arguments are the number of containers
open so far, whether the scan is inside a string, and whether the last
character of that string was a backslash; brackets inside strings do not
count. -/
def depthScan : Nat → Bool → Bool → List Char → Bool
  | _, _, _, [] => false
  | d, true, true, _ :: rest => depthScan d true false rest
  | d, true, false, c :: rest =>
    if c = '\\' then depthScan d true true rest
    else if c = '"' then depthScan d false false rest
    else depthScan d true false rest
  | d, false, _, c :: rest =>
    if c = '"' then depthScan d true false rest
    else if c = '[' ∨ c = '\x7b' then
      if d + 1 > maxNestingDepth then true else depthScan (d + 1) false false rest
    else if c = ']' ∨ c = '\x7d' then depthScan (d - 1) false false rest
    else depthScan d false false rest

/-- The validity check and parse `json.Unmarshal` starts with: the JSON value
of the text, `none` when the check fails, which it does on a text that is not
a JSON text and on one nested deeper than `maxNestingDepth`. -/
def parseJSON (text : String) : Option JSON :=
  if depthScan 0 false false text.data then none else parseText text

/-- A Go `map[string]interface{}` that is not nil: keys are unique. -/
abbrev GoMap := List (String × JSON)

/-- The assignment `m[k] = v` of a Go map. -/
def mapSet (m : GoMap) (k : String) (v : JSON) : GoMap :=
  match m with
  | [] => [(k, v)]
  | (k', v') :: rest => if k' = k then (k, v) :: rest else (k', v') :: mapSet rest k v

/-- The index expression `m[k]` of a Go map; `none` is the nil interface. -/
def mapGet (m : GoMap) (k : String) : Option JSON :=
  match m with
  | [] => none
  | (k', v) :: rest => if k' = k then some v else mapGet rest k

/-- The value of a run of decimal digits. -/
def digitsVal (ds : List Char) : Nat := ds.foldl (fun n c => 10 * n + (c.toNat - '0'.toNat)) 0

/-- The least magnitude `strconv.ParseFloat` rounds to infinity: the largest
`float64` plus half a unit in its last place, `2^1024 - 2^970`. -/
def float64Limit : Nat :=
  179769313486231580793728971405303415079934132710037826936173778980444968292764750946649017977587207096330286416692887910946555547851940402630657488671505820681908902000708383676273854845817711531764475730270069855571366959622842914819860834936475292719074168444365510704342711559699508093042880177904174497792

/-- Whether the magnitude `m * 10^e` is out of the range of `float64`, for a
mantissa of `len` digits `m` and an exponent `e` given by its sign and size. -/
def magnitudeOverflows (m len : Nat) (negExp : Bool) (e : Nat) : Bool :=
  if m = 0 then false
  else if negExp then
    if len ≤ e then false else float64Limit * 10 ^ e ≤ m
  else
    if 400 < e then true else float64Limit ≤ m * 10 ^ e

/-- Whether `strconv.ParseFloat(lit, 64)` reports a range error on a JSON number
literal: the digits of the integer and fraction parts are the mantissa, and the
written exponent is lowered by the number of fraction digits. -/
def float64Overflows (lit : String) : Bool :=
  let body := lit.data.dropWhile fun c => c = '-'
  let mant := body.takeWhile fun c => c ≠ 'e' ∧ c ≠ 'E'
  let expo := (body.dropWhile fun c => c ≠ 'e' ∧ c ≠ 'E').drop 1
  let intPart := mant.takeWhile fun c => c ≠ '.'
  let frac := (mant.dropWhile fun c => c ≠ '.').drop 1
  let m := digitsVal (intPart ++ frac)
  let written := digitsVal (expo.dropWhile fun c => c = '+' ∨ c = '-')
  if expo.head? = some '-' then
    magnitudeOverflows m (intPart ++ frac).length true (written + frac.length)
  else if frac.length ≤ written then
    magnitudeOverflows m (intPart ++ frac).length false (written - frac.length)
  else magnitudeOverflows m (intPart ++ frac).length true (frac.length - written)

mutual
/-- The value `encoding/json` stores in an `interface{}`: objects become fresh
maps (a repeated key keeps its last value), arrays become slices, and a number
out of the range of `float64` is left nil. -/
def interfaceOf : JSON → JSON
  | .arr items => .arr (interfaceOfItems items)
  | .obj members => .obj (interfaceOfMembers members [])
  | .num lit => if float64Overflows lit then .null else .num lit
  | v => v
/-- Elementwise `interfaceOf`. -/
def interfaceOfItems : List JSON → List JSON
  | [] => []
  | v :: rest => interfaceOf v :: interfaceOfItems rest
/-- The members of an object stored one after the other into the map `acc`. -/
def interfaceOfMembers : List (String × JSON) → GoMap → GoMap
  | [], acc => acc
  | (k, v) :: rest, acc => interfaceOfMembers rest (mapSet acc k (interfaceOf v))
end

mutual
/-- Whether storing the value in an `interface{}` records an
`UnmarshalTypeError`: some number in it is out of the range of `float64`. -/
def rangeError : JSON → Bool
  | .arr items => rangeErrorItems items
  | .obj members => rangeErrorMembers members
  | .num lit => float64Overflows lit
  | _ => false
/-- Whether some element records a range error. -/
def rangeErrorItems : List JSON → Bool
  | [] => false
  | v :: rest => rangeError v || rangeErrorItems rest
/-- Whether some member value records a range error. -/
def rangeErrorMembers : List (String × JSON) → Bool
  | [] => false
  | (_, v) :: rest => rangeError v || rangeErrorMembers rest
end

/-- Decoding one JSON value into a `map[string]interface{}` target: an object is
stored member by member into the existing map (made when nil), `null` sets the
map to nil, any other value is an `UnmarshalTypeError` that leaves the target
alone.  The flag is true when an error is recorded: that type error, or a
number out of range inside the object. -/
def decodeMap (cur : Option GoMap) (v : JSON) : Option GoMap × Bool :=
  match v with
  | .obj members => (some (interfaceOfMembers members (cur.getD [])), rangeErrorMembers members)
  | .null => (none, false)
  | _ => (cur, true)

/-- Decoding one JSON value into a `string` target: a string is stored, `null`
is ignored, any other value is an `UnmarshalTypeError`. -/
def decodeString (cur : String) (v : JSON) : String × Bool :=
  match v with
  | .str s => (s, false)
  | .null => (cur, false)
  | _ => (cur, true)

/-- Case folding of `encoding/json` field matching: ASCII letters are folded,
and the Kelvin sign and the long s are the only other runes that fold to an
ASCII letter. -/
def foldChar (c : Char) : Char :=
  if 'a' ≤ c ∧ c ≤ 'z' then Char.ofNat (c.toNat - 32)
  else if c = Char.ofNat 0x212A then 'K'
  else if c = Char.ofNat 0x017F then 'S'
  else c

/-- Folded form of a key. -/
def foldName (s : String) : List Char := s.data.map foldChar

/-- Whether an object key selects the struct field with JSON name `field`
(exact match first, then case-insensitive match: both are `foldName` equality
for the three fields here, whose folded names are distinct). -/
def keyMatches (key field : String) : Bool := foldName key = foldName field

/-- The Go struct `RequestOptions`. -/
structure RequestOptions where
  Query : String
  Variables : Option GoMap
  OperationName : String
  deriving Repr

/-- The Go struct `requestOptionsCompatibility`. -/
structure requestOptionsCompatibility where
  Query : String
  Variables : String
  OperationName : String
  deriving Repr

/-- The zero value `RequestOptions{}`. -/
def RequestOptions.zero : RequestOptions := ⟨"", none, ""⟩

/-- The zero value of `requestOptionsCompatibility`. -/
def requestOptionsCompatibility.zero : requestOptionsCompatibility := ⟨"", "", ""⟩

/-- Decoding the members of a JSON object into a `RequestOptions`, in source
order.  A member whose key selects no field is skipped; a type error on one
member is recorded and decoding goes on with the next member. -/
def decodeOptionsMembers (o : RequestOptions) :
    List (String × JSON) → RequestOptions × Bool
  | [] => (o, false)
  | (k, v) :: rest =>
    if keyMatches k "query" then
      let r := decodeString o.Query v
      let t := decodeOptionsMembers { o with Query := r.1 } rest
      (t.1, r.2 || t.2)
    else if keyMatches k "variables" then
      let r := decodeMap o.Variables v
      let t := decodeOptionsMembers { o with Variables := r.1 } rest
      (t.1, r.2 || t.2)
    else if keyMatches k "operationName" then
      let r := decodeString o.OperationName v
      let t := decodeOptionsMembers { o with OperationName := r.1 } rest
      (t.1, r.2 || t.2)
    else decodeOptionsMembers o rest

/-- Decoding the members of a JSON object into a
`requestOptionsCompatibility`. -/
def decodeCompatMembers (o : requestOptionsCompatibility) :
    List (String × JSON) → requestOptionsCompatibility × Bool
  | [] => (o, false)
  | (k, v) :: rest =>
    if keyMatches k "query" then
      let r := decodeString o.Query v
      let t := decodeCompatMembers { o with Query := r.1 } rest
      (t.1, r.2 || t.2)
    else if keyMatches k "variables" then
      let r := decodeString o.Variables v
      let t := decodeCompatMembers { o with Variables := r.1 } rest
      (t.1, r.2 || t.2)
    else if keyMatches k "operationName" then
      let r := decodeString o.OperationName v
      let t := decodeCompatMembers { o with OperationName := r.1 } rest
      (t.1, r.2 || t.2)
    else decodeCompatMembers o rest

/-- The call `json.Unmarshal(text, &opts)` on a `RequestOptions`: the new value
of `opts` and whether an error is returned.  A syntax error changes nothing; at
the top level an object is decoded member by member, `null` is ignored and any
other value is a type error. -/
def unmarshalOptions (text : String) (o : RequestOptions) : RequestOptions × Bool :=
  match parseJSON text with
  | none => (o, true)
  | some (.obj members) => decodeOptionsMembers o members
  | some .null => (o, false)
  | some _ => (o, true)

/-- The call `json.Unmarshal(text, &optsCompatible)`. -/
def unmarshalCompat (text : String) (o : requestOptionsCompatibility) :
    requestOptionsCompatibility × Bool :=
  match parseJSON text with
  | none => (o, true)
  | some (.obj members) => decodeCompatMembers o members
  | some .null => (o, false)
  | some _ => (o, true)

/-- The call `json.Unmarshal(text, &m)` on a `map[string]interface{}`. -/
def unmarshalMap (text : String) (m : Option GoMap) : Option GoMap × Bool :=
  match parseJSON text with
  | none => (m, true)
  | some v => decodeMap m v

/-! ## `strings`, `net/url` and `net/http` -/

/-- Whether `p` starts the list `l`. -/
def startsWith (p l : List Char) : Bool :=
  match p, l with
  | [], _ => true
  | _ :: _, [] => false
  | a :: p', b :: l' => a = b && startsWith p' l'

/-- Go `strings.Contains` on the characters of two texts. -/
def containsChars (sub : List Char) : List Char → Bool
  | [] => sub.isEmpty
  | c :: rest => startsWith sub (c :: rest) || containsChars sub rest

/-- Go `strings.Contains`. -/
def stringsContains (s sub : String) : Bool := containsChars sub.data s.data

/-- The first element of `strings.Split(s, ";")`: the text before the first
semicolon, the whole text when there is none. -/
def firstToken (s : String) : String := String.mk (s.data.takeWhile fun c => c ≠ ';')

/-- The text after the first semicolon-delimited token, semicolon included. -/
def afterFirstToken (s : String) : List Char := s.data.dropWhile fun c => c ≠ ';'

/-- Go `url.Values` and `http.Header`: a map from a key to its list of values. -/
abbrev Values := List (String × List String)

/-- The index expression `v[key]`; `none` when the key is absent. -/
def Values.lookup (v : Values) (key : String) : Option (List String) :=
  match v with
  | [] => none
  | (k, vs) :: rest => if k = key then some vs else Values.lookup rest key

/-- Go `Values.Get` (and `Header.Get` on a canonical key): the first value of
the key, the empty text when there is none. -/
def Values.Get (v : Values) (key : String) : String :=
  match v.lookup key with
  | some (x :: _) => x
  | _ => ""

/-- The comma-ok form `_, ok := v[key]`. -/
def Values.has (v : Values) (key : String) : Bool := (v.lookup key).isSome

/-- The statement `v[key] = append(v[key], vals...)`. -/
def Values.add (v : Values) (key : String) (vals : List String) : Values :=
  match v with
  | [] => [(key, vals)]
  | (k, vs) :: rest => if k = key then (k, vs ++ vals) :: rest else (k, vs) :: Values.add rest key vals

/-- A piece of an unescaped query component: a code point taken as written, or
a byte written as a percent escape. -/
inductive Piece where
  | ch (c : Char)
  | byte (b : Nat)

/-- The percent and plus decoding of `url.QueryUnescape`; `none` on a percent
sign that is not followed by two hexadecimal digits. -/
def unescapePieces : Nat → List Char → Option (List Piece)
  | 0, _ => none
  | _ + 1, [] => some []
  | fuel + 1, '%' :: a :: b :: rest =>
    match hexVal a, hexVal b with
    | some x, some y => (unescapePieces fuel rest).map (List.cons (.byte (x * 16 + y)))
    | _, _ => none
  | _ + 1, '%' :: _ => none
  | fuel + 1, '+' :: rest => (unescapePieces fuel rest).map (List.cons (.ch ' '))
  | fuel + 1, c :: rest => (unescapePieces fuel rest).map (List.cons (.ch c))

/-- A continuation byte of UTF-8 at the head of the pieces. -/
def contByte : List Piece → Option (Nat × List Piece)
  | .byte b :: rest => if 0x80 ≤ b ∧ b < 0xC0 then some (b - 0x80, rest) else none
  | _ => none

/-- Reading escaped bytes as UTF-8 text; a byte that starts no well-formed
sequence reads as U+FFFD. -/
def decodePieces : Nat → List Piece → List Char
  | 0, _ => []
  | _ + 1, [] => []
  | fuel + 1, .ch c :: rest => c :: decodePieces fuel rest
  | fuel + 1, .byte b :: rest =>
    if b < 0x80 then Char.ofNat b :: decodePieces fuel rest
    else
      let bad := Char.ofNat 0xFFFD :: decodePieces fuel rest
      if 0xC2 ≤ b ∧ b < 0xE0 then
        match contByte rest with
        | some (x, r1) => Char.ofNat ((b - 0xC0) * 64 + x) :: decodePieces fuel r1
        | none => bad
      else if 0xE0 ≤ b ∧ b < 0xF0 then
        match contByte rest with
        | some (x, r1) =>
          match contByte r1 with
          | some (y, r2) =>
            let n := (b - 0xE0) * 4096 + x * 64 + y
            if 0x800 ≤ n ∧ ¬ (0xD800 ≤ n ∧ n < 0xE000) then Char.ofNat n :: decodePieces fuel r2
            else bad
          | none => bad
        | none => bad
      else if 0xF0 ≤ b ∧ b < 0xF5 then
        match contByte rest with
        | some (x, r1) =>
          match contByte r1 with
          | some (y, r2) =>
            match contByte r2 with
            | some (z, r3) =>
              let n := (b - 0xF0) * 262144 + x * 4096 + y * 64 + z
              if 0x10000 ≤ n ∧ n < 0x110000 then Char.ofNat n :: decodePieces fuel r3
              else bad
            | none => bad
          | none => bad
        | none => bad
      else bad

/-- Go `url.QueryUnescape`. -/
def QueryUnescape (s : List Char) : Option String :=
  (unescapePieces (s.length + 1) s).map fun ps => String.mk (decodePieces (ps.length + 1) ps)

/-- Splitting at the first occurrence of a separator (`strings.Cut`): the text
before it and the text after it (empty when the separator is absent). -/
def cut (sep : Char) (s : List Char) : List Char × List Char :=
  (s.takeWhile fun c => c ≠ sep, (s.dropWhile fun c => c ≠ sep).drop 1)

/-- The loop of `url.ParseQuery` over the `&`-separated pairs: a pair with a
semicolon or a bad escape is dropped and makes the call return an error; an
empty pair is skipped.  Each round consumes input, so the fuel `ParseQuery`
gives is never exhausted; exhaustion would read as an error. -/
def parseQueryLoop : Nat → List Char → Values → Values × Bool
  | 0, _, m => (m, true)
  | _ + 1, [], m => (m, false)
  | fuel + 1, c :: cs, m =>
    let pair := (cut '&' (c :: cs)).1
    let rest := (cut '&' (c :: cs)).2
    if pair.contains ';' then ((parseQueryLoop fuel rest m).1, true)
    else if pair.isEmpty then parseQueryLoop fuel rest m
    else
      match QueryUnescape (cut '=' pair).1, QueryUnescape (cut '=' pair).2 with
      | some key, some value => parseQueryLoop fuel rest (m.add key [value])
      | _, _ => ((parseQueryLoop fuel rest m).1, true)

/-- Go `url.ParseQuery`: the values and whether an error is returned. -/
def ParseQuery (query : String) : Values × Bool :=
  parseQueryLoop (query.length + 1) query.data []

/-- Go `unicode.IsSpace`. -/
def isUnicodeSpace (c : Char) : Bool :=
  let n := c.toNat
  (9 ≤ n ∧ n ≤ 13) ∨ n = 0x20 ∨ n = 0x85 ∨ n = 0xA0 ∨ n = 0x1680 ∨ (0x2000 ≤ n ∧ n ≤ 0x200A)
    ∨ n = 0x2028 ∨ n = 0x2029 ∨ n = 0x202F ∨ n = 0x205F ∨ n = 0x3000

/-- Go `strings.TrimLeftFunc(s, unicode.IsSpace)`. -/
def trimLeft (s : List Char) : List Char := s.dropWhile isUnicodeSpace

/-- Go `strings.TrimSpace`. -/
def trimSpace (s : List Char) : List Char := (trimLeft (trimLeft s).reverse).reverse

/-- The special characters of RFC 2045 (`isTSpecial` of package `mime`). -/
def isTSpecial (c : Char) : Bool := "()<>@,;:\\\"/[]?=".data.contains c

/-- Package `mime`: `isTokenChar`. -/
def isTokenChar (c : Char) : Bool := 0x20 < c.toNat ∧ c.toNat < 0x7f ∧ ¬ isTSpecial c

/-- Package `mime`: `consumeToken`, the longest leading run of token
characters and what follows it. -/
def consumeToken (v : List Char) : List Char × List Char :=
  (v.takeWhile isTokenChar, v.dropWhile isTokenChar)

/-- Lower-casing as far as it can produce an ASCII letter: the ASCII capitals,
the Kelvin sign and the dotted capital I. -/
def lowerChar (c : Char) : Char :=
  if 'A' ≤ c ∧ c ≤ 'Z' then Char.ofNat (c.toNat + 32)
  else if c = Char.ofNat 0x212A then 'k'
  else if c = Char.ofNat 0x0130 then 'i'
  else c

/-- Package `mime`: `checkMediaTypeDisposition`; true when the text is a token
optionally followed by a slash and a token. -/
def checkMediaTypeDisposition (s : List Char) : Bool :=
  let typ := (consumeToken s).1
  let rest := (consumeToken s).2
  if typ.isEmpty then false
  else match rest with
    | [] => true
    | '/' :: rest1 => ! (consumeToken rest1).1.isEmpty && (consumeToken rest1).2.isEmpty
    | _ => false

/-- The quoted-string reader of `consumeValue`, after the opening quote. -/
def consumeQuoted : Nat → List Char → List Char → Option (List Char × List Char)
  | 0, _, _ => none
  | _ + 1, [], _ => none
  | fuel + 1, c :: rest, acc =>
    if c = '"' then some (acc.reverse, rest)
    else match c, rest with
      | '\\', d :: rest1 =>
        if isTSpecial d then consumeQuoted fuel rest1 (d :: acc)
        else consumeQuoted fuel rest (c :: acc)
      | _, _ =>
        if c = '\r' ∨ c = '\n' then none else consumeQuoted fuel rest (c :: acc)

/-- Package `mime`: `consumeMediaParam`; one `; name=value` parameter and the
rest of the text, `none` when the text does not start with one. -/
def consumeMediaParam (v : List Char) : Option (List Char × List Char × List Char) :=
  match trimLeft v with
  | ';' :: rest0 =>
    let name := (consumeToken (trimLeft rest0)).1.map lowerChar
    if name.isEmpty then none
    else match trimLeft (consumeToken (trimLeft rest0)).2 with
      | '=' :: rest1 =>
        match trimLeft rest1 with
        | [] => none
        | '"' :: q =>
          match consumeQuoted (q.length + 1) q [] with
          | some (value, rest2) => some (name, value, rest2)
          | none => none
        | rest2 =>
          if (consumeToken rest2).1.isEmpty then none
          else some (name, (consumeToken rest2).1, (consumeToken rest2).2)
      | _ => none
  | _ => none

/-- How the parameter loop of `mime.ParseMediaType` ends. -/
inductive ParamsVerdict where
  | ok
  | invalid
  | duplicate
  deriving DecidableEq, Repr

/-- The parameter loop of `mime.ParseMediaType`.  A run that is no parameter is
accepted only as a lone trailing semicolon; a parameter name given twice with
two values is rejected. -/
def mediaParams : Nat → List Char → List (List Char × List Char) → ParamsVerdict
  | 0, _, _ => .invalid
  | fuel + 1, v, seen =>
    match trimLeft v with
    | [] => .ok
    | v1 =>
      match consumeMediaParam v1 with
      | none => if trimSpace v1 = [';'] then .ok else .invalid
      | some (name, value, rest) =>
        if seen.any (fun p => p.1 = name && p.2 != value) then .duplicate
        else mediaParams fuel rest ((name, value) :: seen)

/-- Go `mime.ParseMediaType` as far as `net/http` form parsing uses it: the
media type and whether an error is returned. -/
def ParseMediaType (v : String) : String × Bool :=
  let base := trimSpace ((cut ';' v.data).1.map lowerChar)
  if ! checkMediaTypeDisposition base then ("", true)
  else
    match mediaParams ((afterFirstToken v).length + 1) (afterFirstToken v) [] with
    | .ok => (String.mk base, false)
    | .invalid => (String.mk base, true)
    | .duplicate => ("", true)

/-- A request body: the bytes `ioutil.ReadAll` returns, or a reader whose read
fails. -/
inductive Body where
  | data (text : String)
  | unreadable
  deriving DecidableEq, Repr

/-- One file part of a parsed multipart form: its content and whether opening
it succeeds. -/
structure FileHeader where
  content : String
  opens : Bool
  deriving DecidableEq, Repr

/-- Go `multipart.Form`: the text fields and the file parts. -/
structure MultipartForm where
  Value : Values
  File : List (String × List FileHeader)
  deriving DecidableEq, Repr

/-- The fields of `http.Request` the handler reads.  `RawQuery` is
`r.URL.RawQuery` (the URL is present, as on every request a server hands to a
handler); `Body` is `none` for a nil body.  `MultipartReading` is what reading
the body as multipart under the boundary of the `Content-Type` header gives
(`multipartReader` then `ReadForm`), `none` when that fails. -/
structure Request where
  Method : String
  RawQuery : String
  Header : Values
  Body : Option Body
  MultipartReading : Option MultipartForm
  deriving Repr

/-- The call `r.URL.Query()`: the parsed query string, malformed pairs silently
dropped. -/
def Request.Query (r : Request) : Values := (ParseQuery r.RawQuery).1

/-- The size limit of `parsePostForm` on a form body (10 MB). -/
def maxFormSize : Nat := 10485760

/-- Package `net/http`: `parsePostForm`; the post form (`none` is nil) and whether an
error is returned. -/
def parsePostForm (r : Request) : Option Values × Bool :=
  match r.Body with
  | none => (none, true)
  | some body =>
    let ct := if r.Header.Get "Content-Type" = "" then "application/octet-stream"
      else r.Header.Get "Content-Type"
    let mt := ParseMediaType ct
    if mt.1 = "application/x-www-form-urlencoded" then
      match body with
      | .unreadable => (none, true)
      | .data b =>
        if b.utf8ByteSize > maxFormSize then (none, true)
        else (some (ParseQuery b).1, mt.2 || (ParseQuery b).2)
    else (none, mt.2)

/-- The call `r.ParseForm()` on a request not parsed before: `r.PostForm`
afterwards and whether an error is returned.  The body is read only for POST,
PUT and PATCH; an error in the URL query string is returned too. -/
def ParseForm (r : Request) : Values × Bool :=
  let post := if r.Method = "POST" ∨ r.Method = "PUT" ∨ r.Method = "PATCH"
    then parsePostForm r else (none, false)
  (post.1.getD [], post.2 || (ParseQuery r.RawQuery).2)

/-- Appending every key of a multipart form's values to the post form. -/
def addAll (post : Values) : Values → Values
  | [] => post
  | (k, vs) :: rest => addAll (post.add k vs) rest

/-- The call `r.ParseMultipartForm(4096)`: on success `r.PostForm` and
`r.MultipartForm` afterwards; `none` when an error is returned (a failed
`ParseForm`, or a body that does not read as multipart). -/
def ParseMultipartForm (r : Request) : Option (Values × MultipartForm) :=
  match r.MultipartReading with
  | none => none
  | some f => if (ParseForm r).2 then none else some (addAll (ParseForm r).1 f.Value, f)

/-- The call `r.FormFile(key)` after a successful `ParseMultipartForm`: the
first file part under the key, when there is one and it opens. -/
def FormFile (f : MultipartForm) (key : String) : Option FileHeader :=
  match f.File.lookup key with
  | some (fh :: _) => if fh.opens then some fh else none
  | _ => none

/-- A line the handler prints with `fmt.Println`. -/
inductive LogLine where
  | jsonError
  | fileError
  | openError
  deriving DecidableEq, Repr

/-- The process state `getFromMultipartForm` touches: the working directory,
the directories and files (path and content) that exist, whether the file
system accepts writes, the identifiers `uuid.NewV4` will return, and standard
output. -/
structure World where
  cwd : String
  dirs : List String
  files : List (String × String)
  writable : Bool
  uuids : List String
  stdout : List LogLine
  deriving DecidableEq, Repr

/-- Go `path.Join(cwd, "tmp")` for a clean working directory. -/
def tmpDir (cwd : String) : String :=
  if cwd = "" then "tmp" else if cwd = "/" then "/tmp" else cwd ++ "/tmp"

/-- Writing `content` over the start of a file, as `io.Copy` does into a file
opened without truncation. -/
def writeFile (files : List (String × String)) (path content : String) :
    List (String × String) :=
  match files with
  | [] => [(path, content)]
  | (p, old) :: rest =>
    if p = path then (p, content ++ String.mk (old.data.drop content.length)) :: rest
    else (p, old) :: writeFile rest path content

/-- A run-time panic of the Go program. -/
inductive Fault where
  | typeAssertion
  deriving DecidableEq, Repr

/-! ## The handler -/

def ContentTypeJSON : String := "application/json"
def ContentTypeGraphQL : String := "application/graphql"
def ContentTypeFormURLEncoded : String := "application/x-www-form-urlencoded"
def ContentTypeMultipartFormData : String := "multipart/form-data"

/-- Source `getFromForm`: options from form values, `none` (nil) when `query`
is empty.  The error of `json.Unmarshal` is dropped. -/
def getFromForm (values : Values) : Option RequestOptions :=
  let query := values.Get "query"
  if query ≠ "" then
    let vars : Option GoMap := some []
    let variablesStr := values.Get "variables"
    some {
      Query := query
      Variables := (unmarshalMap variablesStr vars).1
      OperationName := values.Get "operationName" }
  else none

/-- The identifier `uuid.NewV4` returns; the nil identifier when the generator
fails. -/
def nextUUID (w : World) : String := w.uuids.headD "00000000-0000-0000-0000-000000000000"

/-- Source `getFromMultipartForm`, on the post form and multipart form a
successful `ParseMultipartForm` left in the request.  The two unchecked type
assertions on `variables["input"]` and on `fieldName` panic when the value is
not a map, respectively not a string. -/
def getFromMultipartForm (PostForm : Values) (form : MultipartForm) (w : World) :
    Except Fault (Option RequestOptions × World) :=
  let query := PostForm.Get "query"
  if query ≠ "" then
    let variablesStr := PostForm.Get "variables"
    let u := unmarshalMap variablesStr (some [])
    let w1 := if u.2 then { w with stdout := w.stdout ++ [.jsonError] } else w
    match mapGet (u.1.getD []) "input" with
    | some (.obj input) =>
      match mapGet input "fieldName" with
      | some (.str fieldName) =>
        match FormFile form fieldName with
        | none => .ok (none, { w1 with stdout := w1.stdout ++ [.fileError] })
        | some file =>
          let tmp := tmpDir w1.cwd
          let w2 := if tmp ∉ w1.dirs ∧ ¬ w1.files.any (fun p => p.1 = tmp) ∧ w1.writable
            then { w1 with dirs := w1.dirs ++ [tmp] } else w1
          let w3 := { w2 with uuids := w2.uuids.tail }
          let bufferFile := tmp ++ "/" ++ nextUUID w2
          let vars := mapSet (u.1.getD []) "input" (.obj (mapSet input "buffer" (.str bufferFile)))
          if w3.writable ∧ tmp ∈ w3.dirs ∧ bufferFile ∉ w3.dirs then
            .ok (some {
                Query := query
                Variables := some vars
                OperationName := PostForm.Get "operationName" },
              { w3 with files := writeFile w3.files bufferFile file.content })
          else .ok (none, { w3 with stdout := w3.stdout ++ [.openError] })
      | _ => .error .typeAssertion
    | _ => .error .typeAssertion
  else .ok (none, w)

/-- Source `NewRequestOptions`: the options parsed from a request, the process
state afterwards, or the panic that ends the call. -/
def NewRequestOptions (r : Request) (w : World) : Except Fault (RequestOptions × World) :=
  match getFromForm r.Query with
  | some reqOpt => .ok (reqOpt, w)
  | none =>
    if r.Method ≠ "POST" then .ok (RequestOptions.zero, w)
    else match r.Body with
      | none => .ok (RequestOptions.zero, w)
      | some body =>
        let contentTypeStr := r.Header.Get "Content-Type"
        let contentType := firstToken contentTypeStr
        if contentType = ContentTypeGraphQL then
          match body with
          | .unreadable => .ok (RequestOptions.zero, w)
          | .data b => .ok ({ Query := b, Variables := none, OperationName := "" }, w)
        else if contentType = ContentTypeFormURLEncoded then
          if (ParseForm r).2 then .ok (RequestOptions.zero, w)
          else match getFromForm (ParseForm r).1 with
            | some reqOpt => .ok (reqOpt, w)
            | none => .ok (RequestOptions.zero, w)
        else if contentType = ContentTypeMultipartFormData then
          match ParseMultipartForm r with
          | none => .ok (RequestOptions.zero, w)
          | some (postForm, form) =>
            match getFromMultipartForm postForm form w with
            | .error e => .error e
            | .ok (some reqOpt, w1) => .ok (reqOpt, w1)
            | .ok (none, w1) => .ok (RequestOptions.zero, w1)
        else
          match body with
          | .unreadable => .ok (RequestOptions.zero, w)
          | .data b =>
            let opts := unmarshalOptions b RequestOptions.zero
            if opts.2 then
              let optsCompatible := (unmarshalCompat b requestOptionsCompatibility.zero).1
              .ok ({ opts.1 with
                Variables := (unmarshalMap optsCompatible.Variables opts.1.Variables).1 }, w)
            else .ok (opts.1, w)

/-- Source `Handler`, over a schema type. -/
structure Handler (σ : Type) where
  Schema : σ
  pretty : Bool
  graphiql : Bool

/-- The `graphql.Params` the handler builds, over schema and context types. -/
structure Params (σ κ : Type) where
  Schema : σ
  RequestString : String
  VariableValues : Option GoMap
  OperationName : String
  Context : κ

/-- What `ContextHandler` writes: the console page rendered from the
parameters, or the JSON encoding (indented or compact) of the engine's result
with status 200 and the JSON content type. -/
inductive Response (σ κ ρ : Type) where
  | console (params : Params σ κ)
  | json (indented : Bool) (result : ρ)

/-- Source `Handler.ContextHandler`, over the engine `graphql.Do`. -/
def ContextHandler {σ κ ρ : Type} (Do : Params σ κ → ρ) (h : Handler σ) (ctx : κ)
    (r : Request) (w : World) : Except Fault (Response σ κ ρ × World) :=
  match NewRequestOptions r w with
  | .error e => .error e
  | .ok (opts, w1) =>
    let params : Params σ κ := {
      Schema := h.Schema
      RequestString := opts.Query
      VariableValues := opts.Variables
      OperationName := opts.OperationName
      Context := ctx }
    let result := Do params
    let acceptHeader := r.Header.Get "Accept"
    let raw := r.Query.has "raw"
    if h.graphiql ∧ (!raw ∧ !stringsContains acceptHeader "application/json"
        ∧ stringsContains acceptHeader "text/html") then
      .ok (.console params, w1)
    else if h.pretty then .ok (.json true result, w1)
    else .ok (.json false result, w1)

/-! ## Example inputs -/

/-- The array nested `n + 1` levels deep around nothing. -/
def nest : Nat → JSON
  | 0 => .arr []
  | n + 1 => .arr [nest n]

/-- The text `pre`, then `n` opening and `n` closing square brackets, then `suf`. -/
def deepText (pre suf : String) (n : Nat) : String :=
  String.mk (pre.data ++ (List.replicate n '[' ++ (List.replicate n ']' ++ suf.data)))

/-- A body of the shape `query`, `variables`, `operationName` whose `variables`
object holds an array nested `n` levels deep. -/
def deepVariablesBody (n : Nat) : String :=
  deepText "\x7b\"query\":\"q\",\"variables\":\x7b\"a\":"
    "\x7d,\"operationName\":\"o\"\x7d" n

/-- A body with string `query`, `variables` and `operationName` members and one
more member `x` holding an array nested `n` levels deep. -/
def deepSiblingBody (n : Nat) : String :=
  deepText
    "\x7b\"query\":\"q\",\"variables\":\"\x7b\x7d\",\"operationName\":\"o\",\"x\":" "\x7d" n

/-- A form body with `query=x` and a `variables` field that is the text of a JSON
object holding an array nested `n` levels deep. -/
def deepFormBody (n : Nat) : String :=
  String.mk ("query=x&variables=".data ++ (deepText "\x7b\"a\":" "\x7d" n).data)

/-- A multipart body, under the boundary `x`, with the fields `query` and
`variables` and one file part named `other`. -/
def multipartExample : String :=
  "--x\r\nContent-Disposition: form-data; name=\"query\"\r\n\r\n\x7bping\x7d\r\n"
    ++ "--x\r\nContent-Disposition: form-data; name=\"variables\"\r\n\r\n"
    ++ "\x7b\"input\":\x7b\"fieldName\":\"upload\"\x7d\x7d\r\n"
    ++ "--x\r\nContent-Disposition: form-data; name=\"other\"; filename=\"a.txt\"\r\n\r\n"
    ++ "bytes\r\n--x--\r\n"

/-! ## The nesting limit -/

theorem depthScan_open (n d : Nat) (e : Bool) (rest : List Char) (hd : d ≤ maxNestingDepth)
    (hn : maxNestingDepth < d + n) :
    depthScan d false e (List.replicate n '[' ++ rest) = true := by
  induction n generalizing d e with
  | zero => omega
  | succ n ih =>
    simp only [List.replicate_succ, List.cons_append, depthScan]
    have h1 : ¬ ('[' = '"') := by decide
    simp only [h1, if_false, true_or, if_true]
    by_cases h : d + 1 > maxNestingDepth
    · simp [h]
    · simp only [h, if_false]
      exact ih (d + 1) false (by omega) (by omega)

theorem tokenize_open (n f : Nat) (rest : List Char) :
    tokenize (f + n) (List.replicate n '[' ++ rest)
      = (tokenize f rest).map (fun ts => List.replicate n Token.lbrack ++ ts) := by
  induction n with
  | zero => simp
  | succ n ih =>
    have step : tokenize (f + (n + 1)) (List.replicate (n + 1) '[' ++ rest)
        = (tokenize (f + n) (List.replicate n '[' ++ rest)).map (List.cons Token.lbrack) := by
      show tokenize (f + n + 1) ('[' :: (List.replicate n '[' ++ rest)) = _
      rw [tokenize]
      rfl
    rw [step, ih, Option.map_map]
    rfl

theorem tokenize_close (n f : Nat) (rest : List Char) :
    tokenize (f + n) (List.replicate n ']' ++ rest)
      = (tokenize f rest).map (fun ts => List.replicate n Token.rbrack ++ ts) := by
  induction n with
  | zero => simp
  | succ n ih =>
    have step : tokenize (f + (n + 1)) (List.replicate (n + 1) ']' ++ rest)
        = (tokenize (f + n) (List.replicate n ']' ++ rest)).map (List.cons Token.rbrack) := by
      show tokenize (f + n + 1) (']' :: (List.replicate n ']' ++ rest)) = _
      rw [tokenize]
      rfl
    rw [step, ih, Option.map_map]
    rfl

theorem parseValue_nest (m f : Nat) (rest : List Token) :
    parseValue (f + (2 * m + 1))
        (List.replicate (m + 1) Token.lbrack ++ (List.replicate (m + 1) Token.rbrack ++ rest))
      = some (nest m, rest) := by
  induction m generalizing f rest with
  | zero => rfl
  | succ m ih =>
    have hr : List.replicate (m + 1 + 1) Token.rbrack ++ rest
        = List.replicate (m + 1) Token.rbrack ++ (Token.rbrack :: rest) := by
      rw [List.replicate_succ', List.append_assoc]; rfl
    rw [hr]
    have hi := ih f (Token.rbrack :: rest)
    show parseValue (f + (2 * m + 1) + 1 + 1)
        (Token.lbrack :: Token.lbrack :: (List.replicate m Token.lbrack
          ++ (List.replicate (m + 1) Token.rbrack ++ Token.rbrack :: rest))) = _
    rw [parseValue, parseItems]
    · have hi' : parseValue (f + (2 * m + 1))
          (Token.lbrack :: (List.replicate m Token.lbrack
            ++ (List.replicate (m + 1) Token.rbrack ++ Token.rbrack :: rest)))
          = some (nest m, Token.rbrack :: rest) := hi
      rw [hi']
      rfl
    · intro rest' h
      cases h

theorem parseJSON_deepText (pre suf : String) (n d : Nat)
    (hpre : ∀ X, depthScan 0 false false (pre.data ++ X) = depthScan d false false X)
    (hd : d ≤ maxNestingDepth) (hn : maxNestingDepth < d + n) :
    parseJSON (deepText pre suf n) = none := by
  simp [parseJSON, deepText, hpre, depthScan_open n d false _ hd hn]

theorem tokenize_deepText (pre suf : String) (n kp ks : Nat) (preT sufT : List Token)
    (hpre : ∀ f X, tokenize (f + kp) (pre.data ++ X)
      = (tokenize f X).map (fun ts => preT ++ ts))
    (hsuf : tokenize ks suf.data = some sufT)
    (hfuel : pre.length + suf.length + 1 = ks + kp) :
    tokenize ((deepText pre suf n).length + 1) (deepText pre suf n).data
      = some (preT ++ (List.replicate n Token.lbrack ++ (List.replicate n Token.rbrack ++ sufT))) := by
  have hlen : (deepText pre suf n).length + 1 = ks + n + n + kp := by
    simp only [deepText, String.length_mk, List.length_append, List.length_replicate]
    have h1 : pre.data.length = pre.length := rfl
    have h2 : suf.data.length = suf.length := rfl
    omega
  rw [hlen]
  simp only [deepText]
  rw [hpre, tokenize_open, tokenize_close, hsuf]
  rfl

theorem parseJSON_deepVariablesBody (n : Nat) (hn : maxNestingDepth < 2 + n) :
    parseJSON (deepVariablesBody n) = none :=
  parseJSON_deepText _ _ n 2 (fun _ => rfl) (by decide) hn

theorem tokenize_deepVariablesBody (n : Nat) :
    tokenize ((deepVariablesBody n).length + 1) (deepVariablesBody n).data
      = some ([Token.lbrace, .lit (.str "query"), .colon, .lit (.str "q"), .comma,
            .lit (.str "variables"), .colon, .lbrace, .lit (.str "a"), .colon]
          ++ (List.replicate n Token.lbrack ++ (List.replicate n Token.rbrack
            ++ [Token.rbrace, .comma, .lit (.str "operationName"), .colon, .lit (.str "o"),
              .rbrace]))) := by
  refine tokenize_deepText _ _ n 10 43 _ _ ?_ (by rfl) (by decide)
  intro f X
  simp [tokenize, lexString, isSpace, unescape]
  rfl

theorem parseValue_variablesBody (f : Nat) (vt : List Token) (v : JSON)
    (h : parseValue f (vt ++ [Token.rbrace, .comma, .lit (.str "operationName"), .colon,
        .lit (.str "o"), .rbrace])
      = some (v, [Token.rbrace, .comma, .lit (.str "operationName"), .colon, .lit (.str "o"),
          .rbrace])) :
    parseValue (f + 5)
        ([Token.lbrace, .lit (.str "query"), .colon, .lit (.str "q"), .comma,
            .lit (.str "variables"), .colon, .lbrace, .lit (.str "a"), .colon]
          ++ (vt ++ [Token.rbrace, .comma, .lit (.str "operationName"), .colon,
            .lit (.str "o"), .rbrace]))
      = some (.obj [("query", .str "q"), ("variables", .obj [("a", v)]),
          ("operationName", .str "o")], []) := by
  simp only [List.cons_append, List.nil_append, parseValue, parseMembers, h]
  rfl

theorem parseText_deepVariablesBody (m : Nat) :
    parseText (deepVariablesBody (m + 1))
      = some (.obj [("query", .str "q"), ("variables", .obj [("a", nest m)]),
          ("operationName", .str "o")]) := by
  have hnest := parseValue_nest m 13
    [Token.rbrace, .comma, .lit (.str "operationName"), .colon, .lit (.str "o"), .rbrace]
  rw [← List.append_assoc] at hnest
  have hwrap := parseValue_variablesBody _ _ _ hnest
  have hlen : ([Token.lbrace, .lit (.str "query"), .colon, .lit (.str "q"), .comma,
            .lit (.str "variables"), .colon, .lbrace, .lit (.str "a"), .colon]
          ++ (List.replicate (m + 1) Token.lbrack ++ (List.replicate (m + 1) Token.rbrack
            ++ [Token.rbrace, .comma, .lit (.str "operationName"), .colon, .lit (.str "o"),
              .rbrace]))).length + 1 = 13 + (2 * m + 1) + 5 := by
    simp only [List.length_append, List.length_replicate, List.length_cons, List.length_nil]
    omega
  simp only [parseText, tokenize_deepVariablesBody, hlen]
  rw [← List.append_assoc (List.replicate (m + 1) Token.lbrack), hwrap]

theorem parseJSON_deepSiblingBody (n : Nat) (hn : maxNestingDepth < 1 + n) :
    parseJSON (deepSiblingBody n) = none :=
  parseJSON_deepText _ _ n 1 (fun _ => rfl) (by decide) hn

theorem tokenize_deepSiblingBody (n : Nat) :
    tokenize ((deepSiblingBody n).length + 1) (deepSiblingBody n).data
      = some ([Token.lbrace, .lit (.str "query"), .colon, .lit (.str "q"), .comma,
            .lit (.str "variables"), .colon, .lit (.str "\x7b\x7d"), .comma,
            .lit (.str "operationName"), .colon, .lit (.str "o"), .comma,
            .lit (.str "x"), .colon]
          ++ (List.replicate n Token.lbrack ++ (List.replicate n Token.rbrack
            ++ [Token.rbrace]))) := by
  refine tokenize_deepText _ _ n 15 41 _ _ ?_ (by rfl) (by decide)
  intro f X
  simp [tokenize, lexString, isSpace, unescape]
  rfl

theorem parseValue_siblingBody (f : Nat) (vt : List Token) (v : JSON)
    (h : parseValue f (vt ++ [Token.rbrace]) = some (v, [Token.rbrace])) :
    parseValue (f + 5)
        ([Token.lbrace, .lit (.str "query"), .colon, .lit (.str "q"), .comma,
            .lit (.str "variables"), .colon, .lit (.str "\x7b\x7d"), .comma,
            .lit (.str "operationName"), .colon, .lit (.str "o"), .comma,
            .lit (.str "x"), .colon]
          ++ (vt ++ [Token.rbrace]))
      = some (.obj [("query", .str "q"), ("variables", .str "\x7b\x7d"),
          ("operationName", .str "o"), ("x", v)], []) := by
  simp only [List.cons_append, List.nil_append, parseValue, parseMembers, h]
  rfl

theorem parseText_deepSiblingBody (m : Nat) :
    parseText (deepSiblingBody (m + 1))
      = some (.obj [("query", .str "q"), ("variables", .str "\x7b\x7d"),
          ("operationName", .str "o"), ("x", nest m)]) := by
  have hnest := parseValue_nest m 13 [Token.rbrace]
  rw [← List.append_assoc] at hnest
  have hwrap := parseValue_siblingBody _ _ _ hnest
  have hlen : ([Token.lbrace, .lit (.str "query"), .colon, .lit (.str "q"), .comma,
            .lit (.str "variables"), .colon, .lit (.str "\x7b\x7d"), .comma,
            .lit (.str "operationName"), .colon, .lit (.str "o"), .comma,
            .lit (.str "x"), .colon]
          ++ (List.replicate (m + 1) Token.lbrack ++ (List.replicate (m + 1) Token.rbrack
            ++ [Token.rbrace]))).length + 1 = 13 + (2 * m + 1) + 5 := by
    simp only [List.length_append, List.length_replicate, List.length_cons, List.length_nil]
    omega
  simp only [parseText, tokenize_deepSiblingBody, hlen]
  rw [← List.append_assoc (List.replicate (m + 1) Token.lbrack), hwrap]

/-! ## Form bodies of plain characters -/

theorem cut_append_sep (sep : Char) (l rest : List Char) (h : ∀ c ∈ l, c ≠ sep) :
    cut sep (l ++ sep :: rest) = (l, rest) := by
  have hp : ∀ a ∈ l, (fun c => decide (c ≠ sep)) a = true := by
    intro a ha; simpa using h a ha
  simp only [cut]
  rw [List.takeWhile_append_of_pos hp, List.dropWhile_append_of_pos hp]
  simp

theorem cut_no_sep (sep : Char) (l : List Char) (h : ∀ c ∈ l, c ≠ sep) :
    cut sep l = (l, []) := by
  have hp : ∀ a ∈ l, (fun c => decide (c ≠ sep)) a = true := by
    intro a ha; simpa using h a ha
  simp only [cut]
  rw [List.takeWhile_eq_self_iff.mpr hp, List.dropWhile_eq_nil_iff.mpr hp]
  rfl

theorem unescapePieces_plain (l : List Char) (f : Nat) (hf : l.length < f)
    (h : ∀ c ∈ l, c ≠ '%' ∧ c ≠ '+') : unescapePieces f l = some (l.map Piece.ch) := by
  induction l generalizing f with
  | nil =>
    cases f with
    | zero => omega
    | succ f => rfl
  | cons c rest ih =>
    cases f with
    | zero => omega
    | succ f =>
      have hc := h c (List.mem_cons_self _ _)
      have hrest := ih f (by simpa using hf) (fun x hx => h x (List.mem_cons_of_mem _ hx))
      rw [unescapePieces, hrest]
      · rfl
      · exact fun _ _ _ hp _ => hc.1 hp
      · exact fun hp => hc.1 hp
      · exact fun hp => hc.2 hp

theorem decodePieces_plain (l : List Char) (f : Nat) (hf : l.length < f) :
    decodePieces f (l.map Piece.ch) = l := by
  induction l generalizing f with
  | nil =>
    cases f with
    | zero => omega
    | succ f => rfl
  | cons c rest ih =>
    cases f with
    | zero => omega
    | succ f =>
      simp only [List.map_cons, decodePieces]
      rw [ih f (by simpa using hf)]

theorem QueryUnescape_plain (l : List Char) (h : ∀ c ∈ l, c ≠ '%' ∧ c ≠ '+') :
    QueryUnescape l = some (String.mk l) := by
  simp only [QueryUnescape, unescapePieces_plain l (l.length + 1) (by omega) h, Option.map_some',
    List.length_map]
  rw [decodePieces_plain l (l.length + 1) (by omega)]

theorem contains_false (l : List Char) (x : Char) (h : ∀ c ∈ l, c ≠ x) : l.contains x = false := by
  induction l with
  | nil => rfl
  | cons a rest ih =>
    have ha : a ≠ x := h a (List.mem_cons_self _ _)
    have hx : (x == a) = false := by
      simp only [beq_eq_false_iff_ne, ne_eq]
      exact fun e => ha e.symm
    simp only [List.contains, List.elem, hx]
    exact ih (fun c hc => h c (List.mem_cons_of_mem _ hc))

theorem parseQueryLoop_pair (f : Nat) (pair rest : List Char) (m : Values) (key value : String)
    (hne : pair ≠ []) (hamp : ∀ c ∈ pair, c ≠ '&') (hsemi : ∀ c ∈ pair, c ≠ ';')
    (hk : QueryUnescape (cut '=' pair).1 = some key)
    (hv : QueryUnescape (cut '=' pair).2 = some value) :
    parseQueryLoop (f + 1) (pair ++ '&' :: rest) m = parseQueryLoop f rest (m.add key [value]) := by
  cases pair with
  | nil => exact absurd rfl hne
  | cons c cs =>
    have hcut : cut '&' (c :: (cs ++ '&' :: rest)) = (c :: cs, rest) :=
      cut_append_sep '&' (c :: cs) rest hamp
    have hcont : (c :: cs).contains ';' = false := contains_false _ _ hsemi
    have hmem : ';' ∉ c :: cs := fun hm => hsemi _ hm rfl
    show parseQueryLoop (f + 1) (c :: (cs ++ '&' :: rest)) m = _
    rw [parseQueryLoop]
    rw [hcut]
    simp [hmem, hk, hv]

theorem parseQueryLoop_last (f : Nat) (pair : List Char) (m : Values) (key value : String)
    (hne : pair ≠ []) (hamp : ∀ c ∈ pair, c ≠ '&') (hsemi : ∀ c ∈ pair, c ≠ ';')
    (hk : QueryUnescape (cut '=' pair).1 = some key)
    (hv : QueryUnescape (cut '=' pair).2 = some value) :
    parseQueryLoop (f + 2) pair m = (m.add key [value], false) := by
  cases pair with
  | nil => exact absurd rfl hne
  | cons c cs =>
    have hcut : cut '&' (c :: cs) = (c :: cs, []) := cut_no_sep '&' (c :: cs) hamp
    have hcont : (c :: cs).contains ';' = false := contains_false _ _ hsemi
    have hmem : ';' ∉ c :: cs := fun hm => hsemi _ hm rfl
    simp only [parseQueryLoop]
    simp only [hcut]
    simp [hmem, hk, hv, parseQueryLoop]

theorem deepText_chars (n : Nat) :
    ∀ c ∈ (deepText "\x7b\"a\":" "\x7d" n).data, c ∈ ['\x7b', '"', 'a', ':', '[', ']', '\x7d'] := by
  intro c hc
  simp only [deepText, List.mem_append, List.mem_replicate] at hc
  rcases hc with hc | ⟨_, hc⟩ | ⟨_, hc⟩ | hc
  · revert c; decide
  · subst hc; decide
  · subst hc; decide
  · revert c; decide

theorem ParseQuery_deepFormBody (n : Nat) :
    ParseQuery (deepFormBody n)
      = ([("query", ["x"]), ("variables", [deepText "\x7b\"a\":" "\x7d" n])], false) := by
  have hJ := deepText_chars n
  have hprop : ∀ c ∈ ['\x7b', '"', 'a', ':', '[', ']', '\x7d'],
      c ≠ '&' ∧ c ≠ ';' ∧ c ≠ '%' ∧ c ≠ '+' ∧ c ≠ '=' := by decide
  have hlen : (deepFormBody n).length + 1
      = ((deepText "\x7b\"a\":" "\x7d" n).data.length + 9) + 2 + 1 + 7 := by
    simp only [deepFormBody, String.length_mk, List.length_append]
    simp only [List.length_cons, List.length_nil]
    omega
  have h1 : parseQueryLoop ((deepFormBody n).length + 1) (deepFormBody n).data []
      = parseQueryLoop ((deepText "\x7b\"a\":" "\x7d" n).data.length + 9 + 2 + 7)
          ("variables=".data ++ (deepText "\x7b\"a\":" "\x7d" n).data)
          (Values.add [] "query" ["x"]) := by
    rw [hlen]
    exact parseQueryLoop_pair _ "query=x".data _ [] "query" "x" (by decide) (by decide)
      (by decide) (by rfl) (by rfl)
  have hcut : cut '=' ("variables=".data ++ (deepText "\x7b\"a\":" "\x7d" n).data)
      = ("variables".data, (deepText "\x7b\"a\":" "\x7d" n).data) :=
    cut_append_sep '=' "variables".data _ (by decide)
  have h2 := parseQueryLoop_last ((deepText "\x7b\"a\":" "\x7d" n).data.length + 9 + 7)
    ("variables=".data ++ (deepText "\x7b\"a\":" "\x7d" n).data) (Values.add [] "query" ["x"])
    "variables" (deepText "\x7b\"a\":" "\x7d" n) (by simp)
    (by
      intro c hc
      rw [List.mem_append] at hc
      rcases hc with hc | hc
      · revert c; decide
      · exact (hprop c (hJ c hc)).1)
    (by
      intro c hc
      rw [List.mem_append] at hc
      rcases hc with hc | hc
      · revert c; decide
      · exact (hprop c (hJ c hc)).2.1)
    (by rw [hcut]; rfl)
    (by
      rw [hcut]
      exact QueryUnescape_plain _ (fun c hc => ⟨(hprop c (hJ c hc)).2.2.1, (hprop c (hJ c hc)).2.2.2.1⟩))
  simp only [ParseQuery]
  rw [h1]
  have hf : (deepText "\x7b\"a\":" "\x7d" n).data.length + 9 + 2 + 7
      = (deepText "\x7b\"a\":" "\x7d" n).data.length + 9 + 7 + 2 := by omega
  rw [hf, h2]
  rfl

theorem parseJSON_deepObjectText (n : Nat) (hn : maxNestingDepth < 1 + n) :
    parseJSON (deepText "\x7b\"a\":" "\x7d" n) = none :=
  parseJSON_deepText _ _ n 1 (fun _ => rfl) (by decide) hn

theorem tokenize_deepObjectText (n : Nat) :
    tokenize ((deepText "\x7b\"a\":" "\x7d" n).length + 1) (deepText "\x7b\"a\":" "\x7d" n).data
      = some ([Token.lbrace, .lit (.str "a"), .colon]
          ++ (List.replicate n Token.lbrack ++ (List.replicate n Token.rbrack
            ++ [Token.rbrace]))) := by
  refine tokenize_deepText _ _ n 3 4 _ _ ?_ (by rfl) (by decide)
  intro f X
  simp [tokenize, lexString, isSpace, unescape]
  rfl

theorem parseValue_objectText (f : Nat) (vt : List Token) (v : JSON)
    (h : parseValue f (vt ++ [Token.rbrace]) = some (v, [Token.rbrace])) :
    parseValue (f + 2) ([Token.lbrace, .lit (.str "a"), .colon] ++ (vt ++ [Token.rbrace]))
      = some (.obj [("a", v)], []) := by
  simp only [List.cons_append, List.nil_append, parseValue, parseMembers, h]
  rfl

theorem parseText_deepObjectText (m : Nat) :
    parseText (deepText "\x7b\"a\":" "\x7d" (m + 1)) = some (.obj [("a", nest m)]) := by
  have hnest := parseValue_nest m 4 [Token.rbrace]
  rw [← List.append_assoc] at hnest
  have hwrap := parseValue_objectText _ _ _ hnest
  have hlen : ([Token.lbrace, .lit (.str "a"), .colon]
          ++ (List.replicate (m + 1) Token.lbrack ++ (List.replicate (m + 1) Token.rbrack
            ++ [Token.rbrace]))).length + 1 = 4 + (2 * m + 1) + 2 := by
    simp only [List.length_append, List.length_replicate, List.length_cons, List.length_nil]
    omega
  simp only [parseText, tokenize_deepObjectText, hlen]
  rw [← List.append_assoc (List.replicate (m + 1) Token.lbrack), hwrap]

theorem utf8ByteSize_ascii (l : List Char) (h : ∀ c ∈ l, c.utf8Size = 1) :
    (String.mk l).utf8ByteSize = l.length := by
  show String.utf8ByteSize.go l = l.length
  induction l with
  | nil => rfl
  | cons c rest ih =>
    simp only [String.utf8ByteSize.go, List.length_cons, h c (List.mem_cons_self _ _)]
    rw [ih (fun x hx => h x (List.mem_cons_of_mem _ hx))]

theorem utf8ByteSize_deepFormBody (n : Nat) : (deepFormBody n).utf8ByteSize = 2 * n + 24 := by
  have hall : ∀ c ∈ (deepFormBody n).data, c.utf8Size = 1 := by
    intro c hc
    simp only [deepFormBody, List.mem_append] at hc
    rcases hc with hc | hc
    · revert c; decide
    · have key : ∀ c ∈ ['\x7b', '"', 'a', ':', '[', ']', '\x7d'], c.utf8Size = 1 := by decide
      exact key c (deepText_chars n c hc)
  have h := utf8ByteSize_ascii (deepFormBody n).data hall
  have hlen : (deepFormBody n).data.length = 2 * n + 24 := by
    simp only [deepFormBody, deepText, List.length_append, List.length_replicate]
    simp only [List.length_cons, List.length_nil]
    omega
  rw [← hlen]
  exact h

theorem NewRequestOptions_form_body (w : World) (b RawQuery ct : String)
    (hq : (ParseQuery RawQuery).1.Get "query" = "")
    (hct : firstToken ct = "application/x-www-form-urlencoded")
    (hmt : ParseMediaType ct = ("application/x-www-form-urlencoded", false))
    (hurl : (ParseQuery RawQuery).2 = false)
    (hsz : b.utf8ByteSize ≤ maxFormSize) (hb : (ParseQuery b).2 = false) :
    NewRequestOptions ⟨"POST", RawQuery, [("Content-Type", [ct])], some (.data b), none⟩ w
      = .ok ((getFromForm (ParseQuery b).1).getD RequestOptions.zero, w) := by
  have hne : ct ≠ "" := by
    intro h0
    rw [h0] at hct
    exact absurd hct (by decide)
  have hget : Values.Get [("Content-Type", [ct])] "Content-Type" = ct := by
    simp [Values.Get, Values.lookup]
  have hpf : ParseForm ⟨"POST", RawQuery, [("Content-Type", [ct])], some (.data b), none⟩
      = ((ParseQuery b).1, false) := by
    simp [ParseForm, parsePostForm, hget, hne, hmt, Nat.not_lt.mpr hsz, hb, hurl]
  have hg : ("application/x-www-form-urlencoded" : String) ≠ "application/graphql" := by decide
  have hqf : getFromForm (ParseQuery RawQuery).1 = none := by simp [getFromForm, hq]
  simp only [NewRequestOptions, Request.Query, hqf, hget, hct, hg, hpf,
    ContentTypeGraphQL, ContentTypeFormURLEncoded]
  cases getFromForm (ParseQuery b).1 <;> simp
/-! ## Properties of option resolution -/

set_option exponentiation.threshold 2000 in
theorem float64Limit_eq : float64Limit = 2 ^ 1024 - 2 ^ 970 := by
  norm_num [float64Limit]


theorem Values.Get_of_lookup {v : Values} {key x : String} {rest : List String}
    (h : v.lookup key = some (x :: rest)) : v.Get key = x := by
  simp [Values.Get, h]

/-- C1: when the first `query` parameter of the URL is a non-empty text `q`,
`NewRequestOptions` returns options with `Query = q`, `OperationName` the URL's
`operationName` parameter and `Variables` decoded from the URL's `variables`
parameter, for every method, header set and body; any request with the same
URL query string resolves to the same options, so the body is not consulted. -/
theorem NewRequestOptions_query_string (r : Request) (w : World) (q : String)
    (rest : List String) (hq : r.Query.lookup "query" = some (q :: rest)) (hne : q ≠ "") :
    NewRequestOptions r w
        = .ok ({ Query := q
                 Variables := (unmarshalMap (r.Query.Get "variables") (some [])).1
                 OperationName := r.Query.Get "operationName" }, w)
      ∧ ∀ r' : Request, r'.RawQuery = r.RawQuery →
          NewRequestOptions r' w = NewRequestOptions r w := by
  have hget : r.Query.Get "query" = q := Values.Get_of_lookup hq
  have key : ∀ r' : Request, r'.RawQuery = r.RawQuery →
      NewRequestOptions r' w
        = .ok ({ Query := q
                 Variables := (unmarshalMap (r.Query.Get "variables") (some [])).1
                 OperationName := r.Query.Get "operationName" }, w) := by
    intro r' hr'
    have hQ : r'.Query = r.Query := by simp [Request.Query, hr']
    simp [NewRequestOptions, getFromForm, hQ, hget, hne]
  exact ⟨key r rfl, fun r' hr' => (key r' hr').trans (key r rfl).symm⟩

theorem NewRequestOptions_query_string_witness :
    NewRequestOptions
        ⟨"DELETE", "query=%7Bping%7D&operationName=Test&query=other",
          [("Content-Type", ["application/json"])], some (.data "\x7b\"query\":\"ignored\"\x7d"), none⟩
        ⟨"/srv", [], [], true, [], []⟩
      = .ok ({ Query := "\x7bping\x7d", Variables := some [], OperationName := "Test" },
          ⟨"/srv", [], [], true, [], []⟩) :=
  (NewRequestOptions_query_string
    ⟨"DELETE", "query=%7Bping%7D&operationName=Test&query=other",
      [("Content-Type", ["application/json"])], some (.data "\x7b\"query\":\"ignored\"\x7d"), none⟩
    ⟨"/srv", [], [], true, [], []⟩ "\x7bping\x7d" ["other"] (by decide) (by decide)).1

/-- C7: with no non-empty `query` in the URL, a request whose method is not
POST, or whose body is absent, resolves to the empty options, whatever its
headers and (for other methods) its body are. -/
theorem NewRequestOptions_empty (r : Request) (w : World)
    (hq : r.Query.Get "query" = "") (h : r.Method ≠ "POST" ∨ r.Body = none) :
    NewRequestOptions r w = .ok ({ Query := "", Variables := none, OperationName := "" }, w) := by
  rcases h with h | h
  · simp [NewRequestOptions, getFromForm, hq, h, RequestOptions.zero]
  · simp [NewRequestOptions, getFromForm, hq, h, RequestOptions.zero]

theorem NewRequestOptions_empty_witness :
    NewRequestOptions ⟨"GET", "", [("Content-Type", ["application/json"])], none, none⟩
        ⟨"/srv", [], [], true, [], []⟩
      = .ok ({ Query := "", Variables := none, OperationName := "" },
          ⟨"/srv", [], [], true, [], []⟩) :=
  NewRequestOptions_empty ⟨"GET", "", [("Content-Type", ["application/json"])], none, none⟩
    ⟨"/srv", [], [], true, [], []⟩ (by decide) (Or.inl (by decide))

/-- C5: a POST request with a readable body, no non-empty `query` in the URL
and a `Content-Type` whose first semicolon-delimited token is
`application/graphql` resolves to the whole body as `Query`, nil `Variables`
and an empty `OperationName`. -/
theorem NewRequestOptions_graphql (r : Request) (w : World) (b : String)
    (hq : r.Query.Get "query" = "") (hm : r.Method = "POST") (hb : r.Body = some (.data b))
    (hct : firstToken (r.Header.Get "Content-Type") = "application/graphql") :
    NewRequestOptions r w = .ok ({ Query := b, Variables := none, OperationName := "" }, w) := by
  simp [NewRequestOptions, getFromForm, hq, hm, hb, hct, ContentTypeGraphQL]

theorem NewRequestOptions_graphql_witness :
    NewRequestOptions
        ⟨"POST", "", [("Content-Type", ["application/graphql; charset=utf-8"])],
          some (.data "\x7b ping \x7d"), none⟩ ⟨"/srv", [], [], true, [], []⟩
      = .ok ({ Query := "\x7b ping \x7d", Variables := none, OperationName := "" },
          ⟨"/srv", [], [], true, [], []⟩) :=
  NewRequestOptions_graphql
    ⟨"POST", "", [("Content-Type", ["application/graphql; charset=utf-8"])],
      some (.data "\x7b ping \x7d"), none⟩ ⟨"/srv", [], [], true, [], []⟩ "\x7b ping \x7d"
    (by decide) (by decide) rfl (by decide)

/-- C9: on a request whose options resolve, `ContextHandler` renders the
console exactly when the console is enabled, the URL has no `raw` parameter,
and the `Accept` header contains `text/html` but not `application/json`; in
every other case it writes the engine's result as JSON. -/
theorem ContextHandler_console_iff {σ κ ρ : Type} (Do : Params σ κ → ρ) (h : Handler σ)
    (ctx : κ) (r : Request) (w w1 : World) (opts : RequestOptions)
    (hopts : NewRequestOptions r w = .ok (opts, w1)) :
    (ContextHandler Do h ctx r w
        = .ok (.console ⟨h.Schema, opts.Query, opts.Variables, opts.OperationName, ctx⟩, w1)
      ↔ (h.graphiql = true ∧ r.Query.has "raw" = false
          ∧ stringsContains (r.Header.Get "Accept") "application/json" = false
          ∧ stringsContains (r.Header.Get "Accept") "text/html" = true))
    ∧ (ContextHandler Do h ctx r w
        = .ok (.json h.pretty
            (Do ⟨h.Schema, opts.Query, opts.Variables, opts.OperationName, ctx⟩), w1)
      ↔ ¬ (h.graphiql = true ∧ r.Query.has "raw" = false
          ∧ stringsContains (r.Header.Get "Accept") "application/json" = false
          ∧ stringsContains (r.Header.Get "Accept") "text/html" = true)) := by
  by_cases hc : h.graphiql = true ∧ r.Query.has "raw" = false
      ∧ stringsContains (r.Header.Get "Accept") "application/json" = false
      ∧ stringsContains (r.Header.Get "Accept") "text/html" = true
  · obtain ⟨h1, h2, h3, h4⟩ := hc
    simp [ContextHandler, hopts, h1, h2, h3, h4]
  · cases hp : h.pretty <;> simp [ContextHandler, hopts, hc, hp]

theorem ContextHandler_console_iff_witness :
    ContextHandler (fun _ : Params Unit Unit => ()) ⟨(), true, true⟩ ()
        ⟨"GET", "query=%7Bping%7D", [("Accept", ["text/html"])], none, none⟩
        ⟨"/srv", [], [], true, [], []⟩
      = .ok (.console ⟨(), "\x7bping\x7d", some [], "", ()⟩, ⟨"/srv", [], [], true, [], []⟩)
    ∧ ContextHandler (fun _ : Params Unit Unit => ()) ⟨(), true, true⟩ ()
        ⟨"GET", "query=%7Bping%7D", [("Accept", ["text/html, application/json"])], none, none⟩
        ⟨"/srv", [], [], true, [], []⟩
      = .ok (.json true (), ⟨"/srv", [], [], true, [], []⟩)
    ∧ ContextHandler (fun _ : Params Unit Unit => ()) ⟨(), true, true⟩ ()
        ⟨"GET", "query=%7Bping%7D&raw", [("Accept", ["text/html"])], none, none⟩
        ⟨"/srv", [], [], true, [], []⟩
      = .ok (.json true (), ⟨"/srv", [], [], true, [], []⟩) :=
  ⟨(ContextHandler_console_iff (fun _ : Params Unit Unit => ()) ⟨(), true, true⟩ ()
      ⟨"GET", "query=%7Bping%7D", [("Accept", ["text/html"])], none, none⟩
      ⟨"/srv", [], [], true, [], []⟩ ⟨"/srv", [], [], true, [], []⟩
      ⟨"\x7bping\x7d", some [], ""⟩ rfl).1.mpr (by decide),
   (ContextHandler_console_iff (fun _ : Params Unit Unit => ()) ⟨(), true, true⟩ ()
      ⟨"GET", "query=%7Bping%7D", [("Accept", ["text/html, application/json"])], none, none⟩
      ⟨"/srv", [], [], true, [], []⟩ ⟨"/srv", [], [], true, [], []⟩
      ⟨"\x7bping\x7d", some [], ""⟩ rfl).2.mpr (by decide),
   (ContextHandler_console_iff (fun _ : Params Unit Unit => ()) ⟨(), true, true⟩ ()
      ⟨"GET", "query=%7Bping%7D&raw", [("Accept", ["text/html"])], none, none⟩
      ⟨"/srv", [], [], true, [], []⟩ ⟨"/srv", [], [], true, [], []⟩
      ⟨"\x7bping\x7d", some [], ""⟩ rfl).2.mpr (by decide)⟩

/-- C2: a POST `multipart/form-data` request with a `query` field and no
`variables` field makes `NewRequestOptions` panic on the unchecked type
assertion of `variables["input"]`: no options are returned. -/
theorem NewRequestOptions_multipart_fault :
    NewRequestOptions
        ⟨"POST", "", [("Content-Type", ["multipart/form-data; boundary=x"])],
          some (.data
            "--x\r\nContent-Disposition: form-data; name=\"query\"\r\n\r\n\x7bping\x7d\r\n--x--\r\n"),
          some ⟨[("query", ["\x7bping\x7d"])], []⟩⟩
        ⟨"/srv", [], [], true, [], []⟩
      = .error .typeAssertion := by
  rfl

theorem NewRequestOptions_returns (r : Request) (w : World)
    (h : firstToken (r.Header.Get "Content-Type") ≠ "multipart/form-data") :
    ∃ (opts : RequestOptions) (w1 : World), NewRequestOptions r w = .ok (opts, w1) := by
  simp only [NewRequestOptions, ContentTypeMultipartFormData, if_neg h]
  repeat' split
  all_goals exact ⟨_, _, rfl⟩

/-- C8: on a POST `multipart/form-data` request with no non-empty `query` in
the URL that parses as multipart, when the form's `query` field is empty, or
when `variables.input.fieldName` is a string under which the form holds no file
part, `getFromMultipartForm` returns nil and `NewRequestOptions` returns the
empty options. -/
theorem NewRequestOptions_multipart_no_result (r : Request) (w : World) (body : Body)
    (postForm : Values) (form : MultipartForm)
    (hq : r.Query.Get "query" = "") (hm : r.Method = "POST") (hb : r.Body = some body)
    (hct : firstToken (r.Header.Get "Content-Type") = "multipart/form-data")
    (hp : ParseMultipartForm r = some (postForm, form))
    (h : postForm.Get "query" = ""
      ∨ ∃ (m input : GoMap) (name : String),
          (unmarshalMap (postForm.Get "variables") (some [])).1 = some m
          ∧ mapGet m "input" = some (.obj input)
          ∧ mapGet input "fieldName" = some (.str name)
          ∧ (form.File.lookup name = none ∨ form.File.lookup name = some [])) :
    ∃ w1 : World, getFromMultipartForm postForm form w = .ok (none, w1)
      ∧ NewRequestOptions r w
          = .ok ({ Query := "", Variables := none, OperationName := "" }, w1) := by
  have hres : ∃ w1 : World, getFromMultipartForm postForm form w = .ok (none, w1) := by
    by_cases hpq : postForm.Get "query" = ""
    · exact ⟨w, by simp [getFromMultipartForm, hpq]⟩
    · rcases h with h | ⟨m, input, name, hu, hi, hf, hfile⟩
      · exact absurd h hpq
      · have hff : FormFile form name = none := by
          rcases hfile with hfile | hfile <;> simp [FormFile, hfile]
        refine ⟨{ (if (unmarshalMap (postForm.Get "variables") (some [])).2
            then { w with stdout := w.stdout ++ [.jsonError] } else w) with
          stdout := (if (unmarshalMap (postForm.Get "variables") (some [])).2
            then { w with stdout := w.stdout ++ [.jsonError] } else w).stdout ++ [.fileError] }, ?_⟩
        simp [getFromMultipartForm, hpq, hu, hi, hf, hff]
  obtain ⟨w1, hw1⟩ := hres
  refine ⟨w1, hw1, ?_⟩
  simp [NewRequestOptions, getFromForm, hq, hm, hb, hct, ContentTypeGraphQL,
    ContentTypeFormURLEncoded, ContentTypeMultipartFormData, hp, hw1, RequestOptions.zero]

theorem NewRequestOptions_multipart_no_result_witness :
    ∃ w1 : World,
      getFromMultipartForm
          [("query", ["\x7bping\x7d"]),
            ("variables", ["\x7b\"input\":\x7b\"fieldName\":\"upload\"\x7d\x7d"])]
          ⟨[("query", ["\x7bping\x7d"]),
            ("variables", ["\x7b\"input\":\x7b\"fieldName\":\"upload\"\x7d\x7d"])],
            [("other", [⟨"bytes", true⟩])]⟩
          ⟨"/srv", [], [], true, ["u1"], []⟩ = .ok (none, w1)
      ∧ NewRequestOptions
          ⟨"POST", "", [("Content-Type", ["multipart/form-data; boundary=x"])],
            some (.data multipartExample),
            some ⟨[("query", ["\x7bping\x7d"]),
              ("variables", ["\x7b\"input\":\x7b\"fieldName\":\"upload\"\x7d\x7d"])],
              [("other", [⟨"bytes", true⟩])]⟩⟩
          ⟨"/srv", [], [], true, ["u1"], []⟩
        = .ok ({ Query := "", Variables := none, OperationName := "" }, w1) :=
  NewRequestOptions_multipart_no_result
    ⟨"POST", "", [("Content-Type", ["multipart/form-data; boundary=x"])],
      some (.data multipartExample),
      some ⟨[("query", ["\x7bping\x7d"]),
        ("variables", ["\x7b\"input\":\x7b\"fieldName\":\"upload\"\x7d\x7d"])],
        [("other", [⟨"bytes", true⟩])]⟩⟩
    ⟨"/srv", [], [], true, ["u1"], []⟩ (.data multipartExample) _ _
    (by decide) (by decide) rfl (by decide) rfl
    (Or.inr ⟨[("input", .obj [("fieldName", .str "upload")])], [("fieldName", .str "upload")],
      "upload", rfl, rfl, rfl, Or.inl rfl⟩)

theorem firstToken_data {s t : String} (h : firstToken s = t) :
    (cut ';' s.data).1 = t.data := by
  rw [← h]; rfl

theorem ParseForm_urlencoded (r : Request) (body : Body)
    (hm : r.Method = "POST") (hb : r.Body = some body)
    (hct : firstToken (r.Header.Get "Content-Type") = "application/x-www-form-urlencoded")
    (hpf : (ParseForm r).2 = false) :
    ∃ b : String, body = .data b ∧ (ParseForm r).1 = (ParseQuery b).1
      ∧ (ParseQuery b).2 = false ∧ (ParseQuery r.RawQuery).2 = false := by
  have hne : r.Header.Get "Content-Type" ≠ "" := by
    intro h0
    rw [h0] at hct
    exact absurd hct (by decide)
  have hcut := firstToken_data hct
  have hbase : trimSpace (((cut ';' (r.Header.Get "Content-Type").data).1).map lowerChar)
      = "application/x-www-form-urlencoded".data := by
    rw [hcut]; decide
  have hdisp : checkMediaTypeDisposition "application/x-www-form-urlencoded".data = true := by
    decide
  simp only [ParseForm, hm, parsePostForm, hb, if_neg hne, true_or, if_true] at hpf ⊢
  simp only [ParseMediaType, hbase, hdisp] at hpf ⊢
  cases hv : mediaParams ((afterFirstToken (r.Header.Get "Content-Type")).length + 1)
      (afterFirstToken (r.Header.Get "Content-Type")) [] with
  | ok =>
    simp only [hv] at hpf ⊢
    cases body with
    | unreadable => simp at hpf
    | data b =>
      refine ⟨b, rfl, ?_⟩
      by_cases hsz : b.utf8ByteSize > maxFormSize
      · simp [hsz] at hpf
      · simp [hsz] at hpf ⊢
        exact hpf
  | invalid =>
    simp only [hv] at hpf
    cases body <;> simp at hpf
    split at hpf <;> simp at hpf
  | duplicate =>
    simp only [hv] at hpf
    simp at hpf

/-- C6, amended: on a POST request with no non-empty `query` in the URL, a
`Content-Type` whose first token is `application/x-www-form-urlencoded` and a
successful `ParseForm`, the body is readable and parses as a form, and
`NewRequestOptions` returns the empty options when the form's `query` is empty
and otherwise the form's `query` and `operationName` with `Variables` decoded
from the form's `variables`: the decoded map when that text is a JSON object
nested no deeper than `maxNestingDepth`, the nil map when it is JSON `null`,
and an empty non-nil map in every other case (absent, malformed, nested too
deep, or another kind of JSON value). -/
theorem NewRequestOptions_urlencoded (r : Request) (w : World) (body : Body)
    (hq : r.Query.Get "query" = "") (hm : r.Method = "POST") (hb : r.Body = some body)
    (hct : firstToken (r.Header.Get "Content-Type") = "application/x-www-form-urlencoded")
    (hpf : (ParseForm r).2 = false) :
    ∃ b : String, body = .data b ∧ (ParseQuery b).2 = false
      ∧ NewRequestOptions r w
        = .ok (if (ParseQuery b).1.Get "query" = "" then
                { Query := "", Variables := none, OperationName := "" }
              else
                { Query := (ParseQuery b).1.Get "query"
                  Variables :=
                    match parseJSON ((ParseQuery b).1.Get "variables") with
                    | some (.obj ms) => some (interfaceOfMembers ms [])
                    | some .null => none
                    | _ => some []
                  OperationName := (ParseQuery b).1.Get "operationName" }, w) := by
  obtain ⟨b, hbody, hform, hbq, _⟩ := ParseForm_urlencoded r body hm hb hct hpf
  refine ⟨b, hbody, hbq, ?_⟩
  have hg : ("application/x-www-form-urlencoded" : String) ≠ "application/graphql" := by decide
  by_cases hfq : (ParseQuery b).1.Get "query" = ""
  · simp [NewRequestOptions, getFromForm, hq, hm, hb, hct, hg, ContentTypeGraphQL,
      ContentTypeFormURLEncoded, hpf, hform, hfq, RequestOptions.zero]
  · simp only [NewRequestOptions, getFromForm, hq, hm, hb, hct, hg, ContentTypeGraphQL,
      ContentTypeFormURLEncoded, hpf, hform, hfq, unmarshalMap, decodeMap]
    simp
    cases hj : parseJSON ((ParseQuery b).1.Get "variables") with
    | none => simp [hfq]
    | some v => cases v <;> simp [hfq]

theorem NewRequestOptions_urlencoded_witness :
    NewRequestOptions
        ⟨"POST", "", [("Content-Type", ["application/x-www-form-urlencoded"])],
          some (.data "query=%7Bping%7D&operationName=Test"), none⟩
        ⟨"/srv", [], [], true, [], []⟩
      = .ok ({ Query := "\x7bping\x7d", Variables := some [], OperationName := "Test" },
          ⟨"/srv", [], [], true, [], []⟩) := by
  obtain ⟨b, hb, _, h⟩ := NewRequestOptions_urlencoded
    ⟨"POST", "", [("Content-Type", ["application/x-www-form-urlencoded"])],
      some (.data "query=%7Bping%7D&operationName=Test"), none⟩
    ⟨"/srv", [], [], true, [], []⟩ (.data "query=%7Bping%7D&operationName=Test")
    (by decide) (by decide) rfl (by decide) (by decide)
  cases hb
  exact h.trans rfl
theorem perm_split {α : Type} {a : α} {l m : List α} (h : l.Perm (a :: m)) :
    ∃ s t, l = s ++ a :: t ∧ (s ++ t).Perm m := by
  have ha : a ∈ l := h.symm.subset (List.mem_cons_self a m)
  obtain ⟨s, t, rfl⟩ := List.append_of_mem ha
  exact ⟨s, t, rfl, (List.perm_middle.symm.trans h).cons_inv⟩

theorem append_eq_pair {α : Type} {u v : α} {s t : List α} (h : s ++ t = [u, v]) :
    (s = [] ∧ t = [u, v]) ∨ (s = [u] ∧ t = [v]) ∨ (s = [u, v] ∧ t = []) := by
  match s, h with
  | [], h => exact Or.inl ⟨rfl, h⟩
  | [x], h => simp at h; simp [h]
  | [x, y], h => simp at h; simp [h]
  | x :: y :: z :: s', h => simp at h

theorem perm_pair {α : Type} {b c : α} {l : List α} (h : l.Perm [b, c]) :
    l = [b, c] ∨ l = [c, b] := by
  obtain ⟨s, t, rfl, hst⟩ := perm_split h
  have h1 := List.perm_singleton.mp hst
  match s, h1 with
  | [], h1 => simp at h1; simp [h1]
  | [x], h1 => simp at h1; simp [h1]
  | x :: y :: s', h1 => simp at h1

theorem perm_triple {α : Type} {a b c : α} {l : List α} (h : l.Perm [a, b, c]) :
    l = [a, b, c] ∨ l = [a, c, b] ∨ l = [b, a, c] ∨ l = [c, a, b] ∨ l = [b, c, a]
      ∨ l = [c, b, a] := by
  obtain ⟨s, t, rfl, hst⟩ := perm_split h
  rcases perm_pair hst with h2 | h2 <;> rcases append_eq_pair h2 with ⟨rfl, rfl⟩ | ⟨rfl, rfl⟩ | ⟨rfl, rfl⟩ <;> simp

/-! ## The JSON branch -/

theorem keyMatches_excl {k f g : String} (h : keyMatches k f = true)
    (hfg : foldName f ≠ foldName g) : keyMatches k g = false := by
  simp only [keyMatches, decide_eq_true_eq, decide_eq_false_iff_not] at h ⊢
  rw [h]; exact hfg

theorem parseJSON_eq_some_iff (t : String) (v : JSON) :
    parseJSON t = some v ↔ depthScan 0 false false t.data = false ∧ parseText t = some v := by
  cases hd : depthScan 0 false false t.data <;> simp [parseJSON, hd]

theorem parseJSON_of_parseText {t : String} {v : JSON}
    (hd : depthScan 0 false false t.data = false) (h : parseText t = some v) :
    parseJSON t = some v :=
  (parseJSON_eq_some_iff t v).mpr ⟨hd, h⟩

theorem NewRequestOptions_json_branch (r : Request) (w : World) (b : String)
    (hq : r.Query.Get "query" = "") (hm : r.Method = "POST") (hb : r.Body = some (.data b))
    (h1 : firstToken (r.Header.Get "Content-Type") ≠ "application/graphql")
    (h2 : firstToken (r.Header.Get "Content-Type") ≠ "application/x-www-form-urlencoded")
    (h3 : firstToken (r.Header.Get "Content-Type") ≠ "multipart/form-data") :
    NewRequestOptions r w
      = .ok (if (unmarshalOptions b RequestOptions.zero).2 then
              { (unmarshalOptions b RequestOptions.zero).1 with
                Variables := (unmarshalMap
                  (unmarshalCompat b requestOptionsCompatibility.zero).1.Variables
                  (unmarshalOptions b RequestOptions.zero).1.Variables).1 }
            else (unmarshalOptions b RequestOptions.zero).1, w) := by
  simp only [NewRequestOptions, getFromForm, hq, hm, hb, ContentTypeGraphQL,
    ContentTypeFormURLEncoded, ContentTypeMultipartFormData, if_neg h1, if_neg h2, if_neg h3]
  simp
  split <;> rfl

/-- C3, amended: on a POST request resolved by the JSON branch (no non-empty
`query` in the URL, first `Content-Type` token other than `application/graphql`,
`application/x-www-form-urlencoded` and `multipart/form-data`), a body nested no
deeper than `maxNestingDepth` that is a JSON object with the members `query: Q`,
`variables: V` (an object) and `operationName: O`, in any order, resolves to
exactly `Query = Q`, `Variables` = the map decoded from `V`, `OperationName = O`. -/
theorem NewRequestOptions_json_object (r : Request) (w : World) (b Q O : String)
    (V members : List (String × JSON))
    (hq : r.Query.Get "query" = "") (hm : r.Method = "POST") (hb : r.Body = some (.data b))
    (h1 : firstToken (r.Header.Get "Content-Type") ≠ "application/graphql")
    (h2 : firstToken (r.Header.Get "Content-Type") ≠ "application/x-www-form-urlencoded")
    (h3 : firstToken (r.Header.Get "Content-Type") ≠ "multipart/form-data")
    (hdepth : depthScan 0 false false b.data = false)
    (hbody : parseText b = some (.obj members))
    (hmem : members.Perm
      [("query", .str Q), ("variables", .obj V), ("operationName", .str O)]) :
    NewRequestOptions r w
      = .ok ({ Query := Q, Variables := (decodeMap none (.obj V)).1, OperationName := O }, w) := by
  have hparse := parseJSON_of_parseText hdepth hbody
  rw [NewRequestOptions_json_branch r w b hq hm hb h1 h2 h3]
  have k1 : keyMatches "query" "query" = true := by decide
  have k2 : keyMatches "variables" "query" = false := by decide
  have k3 : keyMatches "variables" "variables" = true := by decide
  have k4 : keyMatches "operationName" "query" = false := by decide
  have k5 : keyMatches "operationName" "variables" = false := by decide
  have k6 : keyMatches "operationName" "operationName" = true := by decide
  have he : parseJSON "" = none := rfl
  rcases perm_triple hmem with h | h | h | h | h | h <;> subst h <;>
    cases hr : rangeErrorMembers V <;>
    simp [unmarshalOptions, unmarshalCompat, unmarshalMap, hparse, decodeOptionsMembers,
      decodeCompatMembers, k1, k2, k3, k4, k5, k6, decodeString, decodeMap,
      RequestOptions.zero, requestOptionsCompatibility.zero, he, hr]

theorem NewRequestOptions_json_object_witness :
    NewRequestOptions
        ⟨"POST", "", [("Content-Type", ["application/json; charset=utf-8"])],
          some (.data
            "\x7b\"operationName\":\"Ping\",\"query\":\"\x7bping\x7d\",\"variables\":\x7b\"a\":1\x7d\x7d"),
          none⟩
        ⟨"/srv", [], [], true, [], []⟩
      = .ok ({ Query := "\x7bping\x7d", Variables := some [("a", .num "1")],
               OperationName := "Ping" }, ⟨"/srv", [], [], true, [], []⟩) :=
  NewRequestOptions_json_object
    ⟨"POST", "", [("Content-Type", ["application/json; charset=utf-8"])],
      some (.data
        "\x7b\"operationName\":\"Ping\",\"query\":\"\x7bping\x7d\",\"variables\":\x7b\"a\":1\x7d\x7d"),
      none⟩
    ⟨"/srv", [], [], true, [], []⟩ _ "\x7bping\x7d" "Ping" [("a", .num "1")]
    [("operationName", .str "Ping"), ("query", .str "\x7bping\x7d"),
      ("variables", .obj [("a", .num "1")])]
    (by decide) (by decide) rfl (by decide) (by decide) (by decide) (by decide) rfl
    ((List.Perm.swap _ _ _).trans (List.Perm.cons _ (List.Perm.swap _ _ _)))

theorem decodeOptionsMembers_Variables_none (o : RequestOptions) (ms : List (String × JSON))
    (ho : o.Variables = none)
    (h : ∀ p ∈ ms, keyMatches p.1 "variables" = true → ∀ vs, p.2 ≠ .obj vs) :
    (decodeOptionsMembers o ms).1.Variables = none := by
  induction ms generalizing o with
  | nil => exact ho
  | cons p rest ih =>
    obtain ⟨k, v⟩ := p
    have hrest : ∀ p ∈ rest, keyMatches p.1 "variables" = true → ∀ vs, p.2 ≠ .obj vs :=
      fun p hp => h p (List.mem_cons_of_mem _ hp)
    simp only [decodeOptionsMembers]
    split
    · exact ih _ ho hrest
    · split
      · rename_i hkv
        have hv := h (k, v) (List.mem_cons_self _ _) hkv
        refine ih _ ?_ hrest
        cases v with
        | obj vs => exact absurd rfl (hv vs)
        | null => rfl
        | bool _ => exact ho
        | num _ => exact ho
        | str _ => exact ho
        | arr _ => exact ho
      · split
        · exact ih _ ho hrest
        · exact ih _ ho hrest

theorem decodeOptionsMembers_error (o : RequestOptions) (ms : List (String × JSON))
    (k S : String) (hmem : (k, JSON.str S) ∈ ms) (hk : keyMatches k "variables" = true) :
    (decodeOptionsMembers o ms).2 = true := by
  have hq : keyMatches k "query" = false := keyMatches_excl hk (by decide)
  induction ms generalizing o with
  | nil => cases hmem
  | cons p rest ih =>
    rcases List.mem_cons.mp hmem with h | h
    · subst h
      simp [decodeOptionsMembers, hq, hk, decodeMap]
    · obtain ⟨k', v⟩ := p
      simp only [decodeOptionsMembers]
      split
      · simp [ih _ h]
      · split
        · simp [ih _ h]
        · split
          · simp [ih _ h]
          · exact ih _ h

theorem decodeCompatMembers_Variables_keep (o : requestOptionsCompatibility)
    (ms : List (String × JSON))
    (h : ∀ p ∈ ms, keyMatches p.1 "variables" = true → ∀ s, p.2 ≠ .str s) :
    (decodeCompatMembers o ms).1.Variables = o.Variables := by
  induction ms generalizing o with
  | nil => rfl
  | cons p rest ih =>
    obtain ⟨k, v⟩ := p
    have hrest : ∀ p ∈ rest, keyMatches p.1 "variables" = true → ∀ s, p.2 ≠ .str s :=
      fun p hp => h p (List.mem_cons_of_mem _ hp)
    simp only [decodeCompatMembers]
    split
    · simp [ih _ hrest]
    · split
      · rename_i hkv
        have hv := h (k, v) (List.mem_cons_self _ _) hkv
        rw [ih _ hrest]
        cases v with
        | str s => exact absurd rfl (hv s)
        | null => rfl
        | bool _ => rfl
        | num _ => rfl
        | obj _ => rfl
        | arr _ => rfl
      · split
        · simp [ih _ hrest]
        · exact ih _ hrest

theorem decodeCompatMembers_Variables_last (o : requestOptionsCompatibility)
    (pre post : List (String × JSON)) (k S : String)
    (hk : keyMatches k "variables" = true)
    (h : ∀ p ∈ post, keyMatches p.1 "variables" = true → ∀ s, p.2 ≠ .str s) :
    (decodeCompatMembers o (pre ++ (k, .str S) :: post)).1.Variables = S := by
  have hq : keyMatches k "query" = false := keyMatches_excl hk (by decide)
  induction pre generalizing o with
  | nil =>
    simp [decodeCompatMembers, hk, hq, decodeString, decodeCompatMembers_Variables_keep _ _ h]
  | cons p rest ih =>
    obtain ⟨k', v⟩ := p
    simp only [List.cons_append, decodeCompatMembers]
    split
    · exact ih _
    · split
      · exact ih _
      · split
        · exact ih _
        · exact ih _

/-- C4, amended: on a POST request resolved by the JSON branch whose body is a
JSON object nested no deeper than `maxNestingDepth`, in which no member whose
key matches `variables` (case-insensitively) is a JSON object and the last such
member that is a JSON string is `S`, with `S` itself the text of a JSON object
nested no deeper than `maxNestingDepth`: the first decode fails, the
compatibility decode reads `S`, and the returned `Variables` is the map decoded
from `S`. -/
theorem NewRequestOptions_variables_string (r : Request) (w : World) (b k S : String)
    (pre post VS : List (String × JSON))
    (hq : r.Query.Get "query" = "") (hm : r.Method = "POST") (hb : r.Body = some (.data b))
    (h1 : firstToken (r.Header.Get "Content-Type") ≠ "application/graphql")
    (h2 : firstToken (r.Header.Get "Content-Type") ≠ "application/x-www-form-urlencoded")
    (h3 : firstToken (r.Header.Get "Content-Type") ≠ "multipart/form-data")
    (hdepth : depthScan 0 false false b.data = false)
    (hbody : parseText b = some (.obj (pre ++ (k, .str S) :: post)))
    (hk : keyMatches k "variables" = true)
    (hobj : ∀ p ∈ pre ++ post, keyMatches p.1 "variables" = true → ∀ vs, p.2 ≠ .obj vs)
    (hstr : ∀ p ∈ post, keyMatches p.1 "variables" = true → ∀ s, p.2 ≠ .str s)
    (hSdepth : depthScan 0 false false S.data = false)
    (hStext : parseText S = some (.obj VS)) :
    ∃ opts : RequestOptions, NewRequestOptions r w = .ok (opts, w)
      ∧ opts.Variables = (decodeMap none (.obj VS)).1
      ∧ (unmarshalOptions b RequestOptions.zero).2 = true
      ∧ (unmarshalCompat b requestOptionsCompatibility.zero).1.Variables = S := by
  have hparse := parseJSON_of_parseText hdepth hbody
  have hS := parseJSON_of_parseText hSdepth hStext
  have herr : (unmarshalOptions b RequestOptions.zero).2 = true := by
    simp only [unmarshalOptions, hparse]
    exact decodeOptionsMembers_error _ _ k S (by simp) hk
  have hvars : (unmarshalOptions b RequestOptions.zero).1.Variables = none := by
    simp only [unmarshalOptions, hparse]
    apply decodeOptionsMembers_Variables_none _ _ rfl
    intro p hp hpk vs
    rcases List.mem_append.mp hp with hp | hp
    · exact hobj p (List.mem_append.mpr (Or.inl hp)) hpk vs
    · rcases List.mem_cons.mp hp with hp | hp
      · rw [hp]; exact fun e => by cases e
      · exact hobj p (List.mem_append.mpr (Or.inr hp)) hpk vs
  have hc : (unmarshalCompat b requestOptionsCompatibility.zero).1.Variables = S := by
    simp only [unmarshalCompat, hparse]
    exact decodeCompatMembers_Variables_last _ _ _ _ _ hk hstr
  refine ⟨_, NewRequestOptions_json_branch r w b hq hm hb h1 h2 h3, ?_, herr, hc⟩
  simp [herr, hvars, hc, unmarshalMap, hS, decodeMap]

theorem NewRequestOptions_variables_string_witness :
    ∃ opts : RequestOptions,
      NewRequestOptions
          ⟨"POST", "", [("Content-Type", ["application/json"])],
            some (.data
              "\x7b\"query\":\"\x7bping\x7d\",\"variables\":\"\x7b\\\"a\\\":1\x7d\"\x7d"), none⟩
          ⟨"/srv", [], [], true, [], []⟩
        = .ok (opts, ⟨"/srv", [], [], true, [], []⟩)
      ∧ opts.Variables = some [("a", .num "1")]
      ∧ (unmarshalOptions
          "\x7b\"query\":\"\x7bping\x7d\",\"variables\":\"\x7b\\\"a\\\":1\x7d\"\x7d"
          RequestOptions.zero).2 = true
      ∧ (unmarshalCompat
          "\x7b\"query\":\"\x7bping\x7d\",\"variables\":\"\x7b\\\"a\\\":1\x7d\"\x7d"
          requestOptionsCompatibility.zero).1.Variables = "\x7b\"a\":1\x7d" :=
  NewRequestOptions_variables_string
    ⟨"POST", "", [("Content-Type", ["application/json"])],
      some (.data
        "\x7b\"query\":\"\x7bping\x7d\",\"variables\":\"\x7b\\\"a\\\":1\x7d\"\x7d"), none⟩
    ⟨"/srv", [], [], true, [], []⟩ _ "variables" "\x7b\"a\":1\x7d"
    [("query", .str "\x7bping\x7d")] [] [("a", .num "1")]
    (by decide) (by decide) rfl (by decide) (by decide) (by decide) (by decide) rfl (by decide)
    (by
      intro p hp hk vs
      simp only [List.append_nil, List.mem_singleton] at hp
      subst hp
      exact fun e => by cases e)
    (by intro p hp; cases hp) (by decide) rfl

theorem NewRequestOptions_rejected_body (w : World) (b : String) (h : parseJSON b = none) :
    NewRequestOptions ⟨"POST", "", [("Content-Type", ["application/json"])], some (.data b), none⟩
        w
      = .ok ({ Query := "", Variables := none, OperationName := "" }, w) := by
  have he : parseJSON "" = none := rfl
  have hq : (ParseQuery "").1.Get "query" = "" := by decide
  have h1 : firstToken (Values.Get [("Content-Type", ["application/json"])] "Content-Type")
      ≠ "application/graphql" := by decide
  have h2 : firstToken (Values.Get [("Content-Type", ["application/json"])] "Content-Type")
      ≠ "application/x-www-form-urlencoded" := by decide
  have h3 : firstToken (Values.Get [("Content-Type", ["application/json"])] "Content-Type")
      ≠ "multipart/form-data" := by decide
  rw [NewRequestOptions_json_branch
    ⟨"POST", "", [("Content-Type", ["application/json"])], some (.data b), none⟩ w b hq rfl rfl
    h1 h2 h3]
  simp [unmarshalOptions, unmarshalCompat, unmarshalMap, h, he, RequestOptions.zero,
    requestOptionsCompatibility.zero]

/-- C3 as stated fails: the body `deepVariablesBody 10001` is a JSON object with
the members `query: "q"`, `variables` (an object) and `operationName: "o"`, but
its `variables` is nested deeper than `encoding/json` accepts, so both decodes
fail and the JSON branch returns the empty options, not the three fields. -/
theorem json_object_depth_counterexample :
    parseText (deepVariablesBody 10001)
      = some (.obj [("query", .str "q"), ("variables", .obj [("a", nest 10000)]),
          ("operationName", .str "o")])
    ∧ NewRequestOptions
        ⟨"POST", "", [("Content-Type", ["application/json"])],
          some (.data (deepVariablesBody 10001)), none⟩ ⟨"/srv", [], [], true, [], []⟩
      = .ok ({ Query := "", Variables := none, OperationName := "" },
          ⟨"/srv", [], [], true, [], []⟩)
    ∧ NewRequestOptions
        ⟨"POST", "", [("Content-Type", ["application/json"])],
          some (.data (deepVariablesBody 10001)), none⟩ ⟨"/srv", [], [], true, [], []⟩
      ≠ .ok ({ Query := "q", Variables := (decodeMap none (.obj [("a", nest 10000)])).1,
               OperationName := "o" }, ⟨"/srv", [], [], true, [], []⟩) := by
  have hres := NewRequestOptions_rejected_body ⟨"/srv", [], [], true, [], []⟩
    (deepVariablesBody 10001) (parseJSON_deepVariablesBody 10001 (by decide))
  refine ⟨parseText_deepVariablesBody 10000, hres, ?_⟩
  rw [hres]
  intro h
  simp at h

/-- C4 as stated fails in two ways.  In the body
`{"Variables":{"b":2},"variables":"{\"a\":1}"}` the member `variables` is a
string that is the text of a JSON object, but the member `Variables` fills the
same field first, and the result is the merged map, not the map decoded from
the string.  In `deepSiblingBody 10001` the member `variables` is the string
`{}` but another member is nested deeper than `encoding/json` accepts, so
every decode fails and `Variables` stays nil. -/
theorem variables_string_counterexample :
    (parseText "\x7b\"Variables\":\x7b\"b\":2\x7d,\"variables\":\"\x7b\\\"a\\\":1\x7d\"\x7d"
        = some (.obj [("Variables", .obj [("b", .num "2")]),
            ("variables", .str "\x7b\"a\":1\x7d")])
      ∧ parseText "\x7b\"a\":1\x7d" = some (.obj [("a", .num "1")])
      ∧ NewRequestOptions
          ⟨"POST", "", [("Content-Type", ["application/json"])],
            some (.data
              "\x7b\"Variables\":\x7b\"b\":2\x7d,\"variables\":\"\x7b\\\"a\\\":1\x7d\"\x7d"),
            none⟩ ⟨"/srv", [], [], true, [], []⟩
        = .ok ({ Query := "", Variables := some [("b", .num "2"), ("a", .num "1")],
                 OperationName := "" }, ⟨"/srv", [], [], true, [], []⟩)
      ∧ (decodeMap none (.obj [("a", .num "1")])).1 = some [("a", .num "1")]
      ∧ (some [("b", JSON.num "2"), ("a", JSON.num "1")] : Option GoMap)
          ≠ some [("a", .num "1")])
    ∧ (parseText (deepSiblingBody 10001)
        = some (.obj [("query", .str "q"), ("variables", .str "\x7b\x7d"),
            ("operationName", .str "o"), ("x", nest 10000)])
      ∧ parseText "\x7b\x7d" = some (.obj [])
      ∧ NewRequestOptions
          ⟨"POST", "", [("Content-Type", ["application/json"])],
            some (.data (deepSiblingBody 10001)), none⟩ ⟨"/srv", [], [], true, [], []⟩
        = .ok ({ Query := "", Variables := none, OperationName := "" },
            ⟨"/srv", [], [], true, [], []⟩)
      ∧ (decodeMap none (.obj [])).1 = some []
      ∧ (none : Option GoMap) ≠ some []) := by
  refine ⟨⟨rfl, rfl, rfl, rfl, by simp⟩, parseText_deepSiblingBody 10000, rfl, ?_, rfl, by simp⟩
  exact NewRequestOptions_rejected_body _ _ (parseJSON_deepSiblingBody 10001 (by decide))

theorem getFromForm_rejected (v : Values) (q : String) (hq : v.Get "query" = q) (hne : q ≠ "")
    (hJ : parseJSON (v.Get "variables") = none) :
    getFromForm v
      = some { Query := q, Variables := some [], OperationName := v.Get "operationName" } := by
  simp [getFromForm, hq, hne, unmarshalMap, hJ]

/-- C6 as stated fails in three ways.  The body `query=%7Bping%7D&variables=null`
parses as a form and its `variables` text is not the JSON text of an object,
yet `Variables` is the nil map, not an empty non-nil map.  With a body that
parses as a form, a malformed URL query string (`a=%zz`) or a malformed
`Content-Type` parameter makes `ParseForm` fail, and the result is the empty
options although the form's `query` is not empty.  In `deepFormBody 10001` the
`variables` text is a JSON object nested deeper than `encoding/json` accepts,
and `Variables` is the empty map, not the map decoded from it. -/
theorem urlencoded_counterexample :
    ((ParseQuery "query=%7Bping%7D&variables=null").2 = false
      ∧ (ParseQuery "query=%7Bping%7D&variables=null").1.Get "variables" = "null"
      ∧ (∀ ms : List (String × JSON), parseText "null" ≠ some (.obj ms))
      ∧ NewRequestOptions
          ⟨"POST", "", [("Content-Type", ["application/x-www-form-urlencoded"])],
            some (.data "query=%7Bping%7D&variables=null"), none⟩
          ⟨"/srv", [], [], true, [], []⟩
        = .ok ({ Query := "\x7bping\x7d", Variables := none, OperationName := "" },
            ⟨"/srv", [], [], true, [], []⟩)
      ∧ (none : Option GoMap) ≠ some [])
    ∧ (ParseQuery "query=%7Bping%7D" = ([("query", ["\x7bping\x7d"])], false)
      ∧ (ParseQuery "a=%zz").1.Get "query" = ""
      ∧ NewRequestOptions
          ⟨"POST", "a=%zz", [("Content-Type", ["application/x-www-form-urlencoded"])],
            some (.data "query=%7Bping%7D"), none⟩ ⟨"/srv", [], [], true, [], []⟩
        = .ok ({ Query := "", Variables := none, OperationName := "" },
            ⟨"/srv", [], [], true, [], []⟩)
      ∧ NewRequestOptions
          ⟨"POST", "", [("Content-Type", ["application/x-www-form-urlencoded; charset"])],
            some (.data "query=%7Bping%7D"), none⟩ ⟨"/srv", [], [], true, [], []⟩
        = .ok ({ Query := "", Variables := none, OperationName := "" },
            ⟨"/srv", [], [], true, [], []⟩)
      ∧ ("" : String) ≠ "\x7bping\x7d")
    ∧ (ParseQuery (deepFormBody 10001)
        = ([("query", ["x"]), ("variables", [deepText "\x7b\"a\":" "\x7d" 10001])], false)
      ∧ parseText (deepText "\x7b\"a\":" "\x7d" 10001) = some (.obj [("a", nest 10000)])
      ∧ NewRequestOptions
          ⟨"POST", "", [("Content-Type", ["application/x-www-form-urlencoded"])],
            some (.data (deepFormBody 10001)), none⟩ ⟨"/srv", [], [], true, [], []⟩
        = .ok ({ Query := "x", Variables := some [], OperationName := "" },
            ⟨"/srv", [], [], true, [], []⟩)
      ∧ (decodeMap (some []) (.obj [("a", nest 10000)])).1 ≠ some []) := by
  have hnull : parseText "null" = some .null := rfl
  have hdeep : NewRequestOptions
        ⟨"POST", "", [("Content-Type", ["application/x-www-form-urlencoded"])],
          some (.data (deepFormBody 10001)), none⟩ ⟨"/srv", [], [], true, [], []⟩
      = .ok ({ Query := "x", Variables := some [], OperationName := "" },
          ⟨"/srv", [], [], true, [], []⟩) := by
    rw [NewRequestOptions_form_body _ (deepFormBody 10001) "" _ (by decide) (by decide)
      (by decide) (by decide) (by rw [utf8ByteSize_deepFormBody]; decide)
      (by rw [ParseQuery_deepFormBody])]
    rw [ParseQuery_deepFormBody]
    have hx : ("x" : String) ≠ "" := by decide
    have h1 : Values.Get [("query", ["x"]),
        ("variables", [deepText "\x7b\"a\":" "\x7d" 10001])] "query" = "x" := rfl
    have h2 : Values.Get [("query", ["x"]),
        ("variables", [deepText "\x7b\"a\":" "\x7d" 10001])] "variables"
          = deepText "\x7b\"a\":" "\x7d" 10001 := rfl
    have h3 : Values.Get [("query", ["x"]),
        ("variables", [deepText "\x7b\"a\":" "\x7d" 10001])] "operationName" = "" := rfl
    have hJ := parseJSON_deepObjectText 10001 (by decide)
    rw [← h2] at hJ
    rw [getFromForm_rejected _ "x" h1 hx hJ, h3]
    rfl
  refine ⟨⟨by decide, by decide, ?_, rfl, by simp⟩, ⟨by decide, by decide, rfl, rfl, by decide⟩,
    ParseQuery_deepFormBody 10001, parseText_deepObjectText 10000, hdeep, ?_⟩
  · intro ms h
    rw [hnull] at h
    cases h
  · simp [decodeMap, interfaceOfMembers, mapSet]

end GraphqlHandler
